import Mathlib

/-!
# CombatRPG: items, players, combat and healing

A shallow embedding of `Game.h` / `Game.cpp`.

* The C++ type `int` is modelled by `Int`; every `+`, `-`, `+=`, `-=` on an `int`
  goes through `wrap32` (two's-complement wrap-around at 32 bits).
* `throw` is modelled by `Except.error`; dereferencing the past-the-end iterator
  returned by an unsuccessful `find_if` is `Fault.undefined`.
* `Player&` references are indices into a store of players (`World`), so that a call
  such as `p.attack(p)` (actor and target aliased) has its C++ meaning.
* An `Object` stored in `items_` is held by a `unique_ptr`; pointer identity of the
  vector elements is their position in the list.
* A `std::string` is a `String`; `+` and `+=` are `++`, `pop_back` drops the last
  character and `std::to_string` is the decimal rendering of an `Int`.
-/

namespace CombatRPG

/-! ## Machine integers -/

/-- Two's-complement wrap-around of a mathematical integer into the `int` range. -/
def wrap32 (x : Int) : Int := (x + 2147483648) % 4294967296 - 2147483648

/-- Addition of two `int`s. -/
def iadd (a b : Int) : Int := wrap32 (a + b)

/-- Subtraction of two `int`s. -/
def isub (a b : Int) : Int := wrap32 (a - b)

/-- The values representable in an `int`. -/
def IsInt (x : Int) : Prop := -2147483648 ≤ x ∧ x ≤ 2147483647

instance (x : Int) : Decidable (IsInt x) := by unfold IsInt; exact inferInstance

/-! ## Exceptions -/

/-- What a call can end with instead of returning: one of the two exception classes
thrown in `Game.cpp` (with its `what()` text), or undefined behaviour. -/
inductive Fault where
  | invalid_argument (what : String)
  | logic_error (what : String)
  | undefined
  deriving DecidableEq

/-! ## Objects -/

/-- The three concrete subclasses of `Object`. -/
inductive ObjectClass where
  | Food
  | Weapon
  | Armour
  deriving DecidableEq

/-- The text each subclass constructor stores in `type_`. -/
def ObjectClass.type_ : ObjectClass → String
  | .Food => "Food"
  | .Weapon => "Weapon"
  | .Armour => "Armour"

/-- An `Object`: its dynamic class, `name_` and `value_`.  The `owner_` pointer is not
stored; `use` receives the owner explicitly. -/
structure Object where
  cls : ObjectClass
  name_ : String
  value_ : Int
  deriving DecidableEq

/-- Constructor `Object::Object(string name, int value)` as run by the constructor of
subclass `c`. -/
def Object.new (c : ObjectClass) (name : String) (value : Int) : Except Fault Object :=
  if value < 0 then
    .error (.invalid_argument "object value cannot be negative")
  else
    .ok { cls := c, name_ := name, value_ := value }

/-- Constructor `Food::Food(string name, int value)`. -/
def Food.new (name : String) (value : Int) : Except Fault Object :=
  Object.new .Food name value

/-- Constructor `Weapon::Weapon(string name, int value)`. -/
def Weapon.new (name : String) (value : Int) : Except Fault Object :=
  Object.new .Weapon name value

/-- Constructor `Armour::Armour(string name, int value)`. -/
def Armour.new (name : String) (value : Int) : Except Fault Object :=
  Object.new .Armour name value

/-- Method `Object::getName`. -/
def Object.getName (o : Object) : String := o.name_

/-- Method `Object::getValue`. -/
def Object.getValue (o : Object) : Int := o.value_

/-- Algorithm `std::find_if` over `items_`: the position of the first element satisfying `pred`,
or the length of the list (the `end()` iterator) when there is none. -/
def find_if (pred : Object → Bool) : List Object → Nat
  | [] => 0
  | o :: rest => if pred o then 0 else find_if pred rest + 1

/-! ## Players -/

/-- The two concrete subclasses of `Player`. -/
inductive PlayerClass where
  | Fighter
  | Healer
  deriving DecidableEq

/-- The text each subclass constructor stores in `type_`. -/
def PlayerClass.type_ : PlayerClass → String
  | .Fighter => "Fighter"
  | .Healer => "Healer"

/-- The member variables of `Player` together with the dynamic class. -/
structure Player where
  cls : PlayerClass
  name_ : String
  health_ : Int
  stamina_ : Int
  weapon_ : String
  armour_ : List String
  items_ : List Object
  deriving DecidableEq

/-- Constructor `Player::Player(string name)` as run by the constructor of subclass `c`. -/
def Player.new (c : PlayerClass) (name : String) : Player :=
  { cls := c, name_ := name, health_ := 100, stamina_ := 100,
    weapon_ := "none", armour_ := [], items_ := [] }

/-- Constructor `Fighter::Fighter(string name)`. -/
def Fighter.new (name : String) : Player := Player.new .Fighter name

/-- Constructor `Healer::Healer(string name)`. -/
def Healer.new (name : String) : Player := Player.new .Healer name

/-- Method `Player::getName`. -/
def Player.getName (p : Player) : String := p.name_

/-- Method `Player::getHealth`. -/
def Player.getHealth (p : Player) : Int := p.health_

/-- Method `Player::getStamina`. -/
def Player.getStamina (p : Player) : Int := p.stamina_

/-- Method `Food::use` of the object `self` on its owner: raise the stamina (capped by the
comparison against 100), then erase from `items_` the element the `find_if` by name
points at.  `remove(begin, end, *it)` compares `unique_ptr`s, so it discards exactly
the element at `it`. -/
def Food.use (self : Object) (owner : Player) : Except Fault Player :=
  let owner1 : Player :=
    if iadd owner.stamina_ self.value_ > 100 then
      { owner with stamina_ := 100 }
    else
      { owner with stamina_ := iadd owner.stamina_ self.value_ }
  let it := find_if (fun food => food.getName == self.name_) owner1.items_
  match owner1.items_[it]? with
  | some _ => .ok { owner1 with items_ := owner1.items_.eraseIdx it }
  | none => .error .undefined

/-- Method `Weapon::use` of the object `self` on its owner. -/
def Weapon.use (self : Object) (owner : Player) : Except Fault Player :=
  .ok { owner with weapon_ := self.name_ }

/-- Method `Armour::use` of the object `self` on its owner. -/
def Armour.use (self : Object) (owner : Player) : Except Fault Player :=
  .ok { owner with armour_ := owner.armour_ ++ [self.name_] }

/-- The virtual call `object->use()`, dispatched on the dynamic class. -/
def Object.use (self : Object) (owner : Player) : Except Fault Player :=
  match self.cls with
  | .Food => Food.use self owner
  | .Weapon => Weapon.use self owner
  | .Armour => Armour.use self owner

/-- Method `Player::pickup`. -/
def Player.pickup (p : Player) (o : Object) : Except Fault Player :=
  if p.health_ = 0 then
    .error (.logic_error "player is dead")
  else
    .ok { p with items_ := p.items_ ++ [o] }

/-- Method `Player::use`: the returned pair is the `bool` result and the player afterwards. -/
def Player.use (p : Player) (name : String) : Except Fault (Bool × Player) :=
  if p.health_ = 0 then
    .error (.logic_error "player is dead")
  else
    let it := find_if (fun object => object.getName == name) p.items_
    if it ≠ p.items_.length then
      match p.items_[it]? with
      | some object =>
          match object.use p with
          | .ok p1 => .ok (true, p1)
          | .error e => .error e
      | none => .error .undefined
    else
      .ok (false, p)

/-! ## The store of players -/

/-- All players of a session, addressed by index: a `Player&` is an index. -/
abbrev World := Nat → Player

/-- Overwrite the player at index `i`. -/
def World.set (w : World) (i : Nat) (p : Player) : World :=
  fun k => if k = i then p else w k

/-- Lines 293-297 of `Fighter::attack`: the attack value of the attacker. -/
def Fighter.attackValue (self : Player) : Except Fault Int :=
  if self.weapon_ ≠ "none" then
    let it := find_if (fun object => object.getName == self.weapon_) self.items_
    match self.items_[it]? with
    | some object => .ok (iadd 10 object.getValue)
    | none => .error .undefined
  else
    .ok 10

/-- The loop of lines 300-304 of `Fighter::attack`, from the entries of `armour_` still
to visit and the value accumulated in `defence` so far. -/
def Fighter.defenceLoop (items : List Object) : List String → Int → Except Fault Int
  | [], defence => .ok defence
  | name :: rest, defence =>
      let it := find_if (fun object => object.getName == name) items
      match items[it]? with
      | some object => Fighter.defenceLoop items rest (iadd defence object.getValue)
      | none => .error .undefined

/-- Lines 299-304 of `Fighter::attack`: the defence value of the target. -/
def Fighter.defenceValue (other : Player) : Except Fault Int :=
  Fighter.defenceLoop other.items_ other.armour_ 0

/-- Method `Fighter::attack`, called on the player at index `self` with `other` bound to
the player at index `other`.  The pair is the `bool` result and the store afterwards. -/
def Fighter.attack (w : World) (self other : Nat) : Except Fault (Bool × World) :=
  if (w self).health_ = 0 then
    .error (.logic_error "Player is dead.")
  else if (w other).getHealth = 0 then
    .error (.logic_error ("Stop! " ++ (w other).getName ++ " is already dead."))
  else
    if (w self).stamina_ < 10 then
      .ok (false, w)
    else
      let w1 := w.set self { w self with stamina_ := isub (w self).stamina_ 10 }
      match Fighter.attackValue (w1 self) with
      | .error e => .error e
      | .ok attack =>
          match Fighter.defenceValue (w1 other) with
          | .error e => .error e
          | .ok defence =>
              if attack > defence then
                let w2 := w1.set other
                  { w1 other with health_ := isub (w1 other).health_ (isub attack defence) }
                let w3 :=
                  if (w2 other).health_ < 0 then
                    w2.set other { w2 other with health_ := 0 }
                  else w2
                .ok (true, w3)
              else if defence > attack then
                .ok (false, w1)
              else
                .ok (false, w1)

/-- Method `Healer::heal`, called on the player at index `self` with `other` bound to
the player at index `other`.  The pair is the `bool` result and the store afterwards. -/
def Healer.heal (w : World) (self other : Nat) : Except Fault (Bool × World) :=
  if (w self).health_ = 0 then
    .error (.logic_error "Player is dead.")
  else if (w other).getHealth = 0 then
    .error (.logic_error ((w other).getName ++ " is dead."))
  else
    if (w self).stamina_ < 10 then
      .ok (false, w)
    else if (w other).getHealth = 100 then
      .ok (false, w.set self { w self with stamina_ := isub (w self).stamina_ 10 })
    else
      let w1 := w.set self { w self with stamina_ := isub (w self).stamina_ 10 }
      let w2 := w1.set other { w1 other with health_ := iadd (w1 other).health_ 20 }
      let w3 :=
        if (w2 other).health_ > 100 then
          w2.set other { w2 other with health_ := 100 }
        else w2
      .ok (true, w3)

/-! ## Sessions: sequences of calls made by a driver -/

/-- One call of the public interface.  Players are named by index; the object handed to
`pickup` is one that a constructor returned. -/
inductive Op where
  | pickup (p : Nat) (o : Object)
  | use (p : Nat) (name : String)
  | attack (self other : Nat)
  | heal (self other : Nat)

/-- A call the C++ type system admits in store `w`: `attack` is a member of `Fighter`
only, `heal` of `Healer` only, and an object exists only if its constructor did not
throw (so its value is a non-negative `int`). -/
def Op.Valid (w : World) : Op → Prop
  | .pickup _ o => 0 ≤ o.value_ ∧ o.value_ ≤ 2147483647
  | .use _ _ => True
  | .attack self _ => (w self).cls = .Fighter
  | .heal self _ => (w self).cls = .Healer

/-- The effect of one call on the store: the `bool` it returned (if it has one) and the
store afterwards, or the fault it ended with. -/
def World.call (w : World) : Op → Except Fault (Option Bool × World)
  | .pickup p o =>
      match (w p).pickup o with
      | .ok p1 => .ok (none, w.set p p1)
      | .error e => .error e
  | .use p name =>
      match (w p).use name with
      | .ok (b, p1) => .ok (some b, w.set p p1)
      | .error e => .error e
  | .attack self other =>
      match Fighter.attack w self other with
      | .ok (b, w1) => .ok (some b, w1)
      | .error e => .error e
  | .heal self other =>
      match Healer.heal w self other with
      | .ok (b, w1) => .ok (some b, w1)
      | .error e => .error e

/-- The store after one call, when the driver catches exceptions and carries on.  Every
`throw` in `Game.cpp` precedes all writes of its function, so a call that throws leaves
the store as it was.  After undefined behaviour there is no store to speak of. -/
def World.step (w : World) (op : Op) : Option World :=
  match w.call op with
  | .ok (_, w1) => some w1
  | .error .undefined => none
  | .error _ => some w

/-- The store after a sequence of calls. -/
def World.run (w : World) : List Op → Option World
  | [] => some w
  | op :: ops =>
      match w.step op with
      | some w1 => World.run w1 ops
      | none => none

/-- A store of freshly constructed players: player `i` is a `Fighter` or a `Healer`
(as `classes i` says) constructed with name `names i`. -/
def World.fresh (classes : Nat → PlayerClass) (names : Nat → String) : World :=
  fun i => Player.new (classes i) (names i)

/-- The stores a driver can reach: start from freshly constructed players and make
finitely many calls, each admitted by the type system. -/
inductive Reachable : World → Prop where
  | fresh (classes : Nat → PlayerClass) (names : Nat → String) :
      Reachable (World.fresh classes names)
  | step {w w1 : World} (op : Op) :
      Reachable w → op.Valid w → w.step op = some w1 → Reachable w1

/-! ## Text reports -/

/-- Library function `std::to_string(int)`: the decimal rendering, with a leading `-`
for negative values. -/
def to_string (v : Int) : String := toString v

/-- Library function `std::string::pop_back`: the string without its last character. -/
def pop_back (s : String) : String := ⟨s.data.dropLast⟩

/-- Method `Object::print`. -/
def Object.print (o : Object) : String :=
  o.cls.type_ ++ ", name: " ++ o.name_ ++ ", value: " ++ to_string o.value_

/-- The loop of lines 211-213 of `Player::getInventory`, from the items still to visit
and the text accumulated in `inv` so far. -/
def Player.getInventoryLoop : List Object → String → String
  | [], inv => inv
  | o :: rest, inv => Player.getInventoryLoop rest (inv ++ (o.print ++ "\n "))

/-- Method `Player::getInventory`. -/
def Player.getInventory (p : Player) : String :=
  let inv := "List of items:"
  if p.items_.length ≠ 0 then
    let inv1 := inv ++ "\n "
    let inv2 := Player.getInventoryLoop p.items_ inv1
    pop_back (pop_back inv2)
  else
    inv ++ " none"

/-- The member `type_` of a player, as its subclass constructor set it. -/
def Player.type_ (p : Player) : String := p.cls.type_

/-- The loop over `armour_` shared by `Fighter::print` (lines 336-338) and
`Healer::print` (lines 402-404), from the names still to visit and the text accumulated
in `player` so far. -/
def Player.armourLoop : List String → String → String
  | [], player => player
  | a :: rest, player => Player.armourLoop rest (player ++ (a ++ ", "))

/-- Method `Fighter::print`. -/
def Fighter.print (p : Player) : String :=
  let player := "Name: " ++ p.name_ ++ "\nType: " ++ p.type_ ++ "\nHealth: " ++
    to_string p.health_ ++ "\nStamina: " ++ to_string p.stamina_ ++ "\n" ++ p.getInventory
  let player1 := player ++ ("\nWeapon in use: " ++ p.weapon_)
  let player2 := player1 ++ "\nArmour in use: "
  if p.armour_.length = 0 then
    player2 ++ "none"
  else
    pop_back (pop_back (Player.armourLoop p.armour_ player2))

/-- Method `Healer::print`. -/
def Healer.print (p : Player) : String :=
  let player := "Name: " ++ p.name_ ++ "\nType: " ++ p.type_ ++ "\nHealth: " ++
    to_string p.health_ ++ "\nStamina: " ++ to_string p.stamina_ ++ "\n" ++ p.getInventory
  let player1 := player ++ "\nArmour in use: "
  if p.armour_.length = 0 then
    player1 ++ "none"
  else
    pop_back (pop_back (Player.armourLoop p.armour_ player1))

/-- The virtual call `player.print()`, dispatched on the dynamic class. -/
def Player.print (p : Player) : String :=
  match p.cls with
  | .Fighter => Fighter.print p
  | .Healer => Healer.print p

/-! ## Vocabulary of the specification -/

/-- Store `w1` differs from store `w` at most in the stamina of player `self` and in
the health of player `other`. -/
def World.SameExcept (w w1 : World) (self other : Nat) : Prop :=
  ∀ k, (w1 k).cls = (w k).cls ∧ (w1 k).name_ = (w k).name_ ∧
    (w1 k).weapon_ = (w k).weapon_ ∧ (w1 k).armour_ = (w k).armour_ ∧
    (w1 k).items_ = (w k).items_ ∧
    (k ≠ other → (w1 k).health_ = (w k).health_) ∧
    (k ≠ self → (w1 k).stamina_ = (w k).stamina_)

/-- The first inventory item carrying the given name, when there is one. -/
def Player.firstNamed (p : Player) (name : String) : Option Object :=
  p.items_.find? (fun o => o.getName == name)

/-- Every equipped name resolves: the equipped weapon is `"none"` or names an inventory
item whose first name-match is a Weapon, and every equipped armour name is that of an
inventory item whose first name-match is an Armour. -/
def Player.Equipped (p : Player) : Prop :=
  (p.weapon_ ≠ "none" → ∃ o, p.firstNamed p.weapon_ = some o ∧ o.cls = .Weapon) ∧
  ∀ n ∈ p.armour_, ∃ o, p.firstNamed n = some o ∧ o.cls = .Armour

/-- Following the spec's words: "the inventory item whose name equals" `name`, i.e.
the value of the first item of that name, when there is one. -/
def Spec.itemValue (items : List Object) (name : String) : Option Int :=
  (items.find? (fun o => o.name_ == name)).map (fun o => o.value_)

/-- Following the spec's words (4.3 step 3): base attack power 10, plus the value of
the inventory item named `equippedWeapon` unless that is `"none"`.  A mathematical
integer; `none` when the weapon name resolves to no item. -/
def Spec.attackPower (p : Player) : Option Int :=
  if p.weapon_ = "none" then some 10
  else (Spec.itemValue p.items_ p.weapon_).map (fun v => 10 + v)

/-- Following the spec's words (4.3 step 4): the sum, over the listed names with
duplicates, of the value of the matching inventory item. -/
def Spec.defenceSum (items : List Object) : List String → Option Int
  | [] => some 0
  | name :: rest =>
      match Spec.itemValue items name, Spec.defenceSum items rest with
      | some v, some s => some (v + s)
      | _, _ => none

/-- Following the spec's words (4.3 step 4): the defence power of a target. -/
def Spec.defencePower (p : Player) : Option Int :=
  Spec.defenceSum p.items_ p.armour_

/-- Following the spec's words: each item's description "on its own indented line", i.e.
a newline, one space and the description, in insertion order. -/
def Spec.itemLines : List Object → String
  | [] => ""
  | o :: rest => "\n " ++ o.print ++ Spec.itemLines rest

/-- Following the spec's words: the names "comma-joined", i.e. in order, separated by
`", "`, with no trailing separator. -/
def Spec.commaJoined : List String → String
  | [] => ""
  | [a] => a
  | a :: b :: rest => a ++ ", " ++ Spec.commaJoined (b :: rest)

/-- Following the spec's words: the text after "Armour in use: ", the comma-joined names
or `none`. -/
def Spec.armourText (armour : List String) : String :=
  if armour = [] then "none" else Spec.commaJoined armour

/-- Following the spec's words: the first four lines of a report and the inventory
report, for a player of the type named `kind`. -/
def Spec.reportHead (kind : String) (p : Player) : String :=
  "Name: " ++ p.name_ ++ "\nType: " ++ kind ++ "\nHealth: " ++ to_string p.health_ ++
    "\nStamina: " ++ to_string p.stamina_ ++ "\n" ++ p.getInventory

/-- Following the spec's words: the decimal rendering of an integer, i.e. a `-` sign for
a negative value, then the base-10 digits of the absolute value, most significant first
(`0` for zero). -/
def Spec.decimal (v : Int) : String :=
  (if v < 0 then "-" else "") ++
    (if v = 0 then "0" else String.mk ((Nat.digits 10 v.natAbs).reverse.map Nat.digitChar))

/-- The effect of `k` successive calls `use(name)` on a player, each of which must
return true; `none` as soon as one call does not. -/
def Player.useTimes (name : String) : Nat → Player → Option Player
  | 0, p => some p
  | k + 1, p =>
      match p.use name with
      | .ok (true, p1) => Player.useTimes name k p1
      | _ => none

/-! ## Sample sessions -/

/-- Three fresh players: fighters Alice (0) and Bob (1), and the healer Cara (2). -/
def arena : World :=
  World.fresh (fun i => if i = 2 then .Healer else .Fighter)
    (fun i => if i = 0 then "Alice" else if i = 1 then "Bob" else "Cara")

/-- Alice picks up a Food of the largest `int` value and eats it. -/
def feastOps : List Op :=
  [.pickup 0 ⟨.Food, "Feast", 2147483647⟩, .use 0 "Feast"]

/-- The store after `feastOps`. -/
def afterFeast : World := (arena.run feastOps).getD arena

/-- Alice equips a 15-point sword and strikes Bob four times. -/
def duelOps : List Op :=
  [.pickup 0 ⟨.Weapon, "Sword", 15⟩, .use 0 "Sword",
   .attack 0 1, .attack 0 1, .attack 0 1, .attack 0 1]

/-- The store after `duelOps`: Bob is dead. -/
def afterDuel : World := (arena.run duelOps).getD arena

/-- Alice equips a 15-point sword and strikes Bob once (scenario A). -/
def blowOps : List Op :=
  [.pickup 0 ⟨.Weapon, "Sword", 15⟩, .use 0 "Sword", .attack 0 1]

/-- The store after `blowOps`: Bob is at 75 health. -/
def afterBlow : World := (arena.run blowOps).getD arena

/-- Bob picks up a 5-point shield and equips it twice (scenario D). -/
def shieldOps : List Op :=
  [.pickup 1 ⟨.Armour, "Shield", 5⟩, .use 1 "Shield", .use 1 "Shield"]

/-- The store after `shieldOps`. -/
def shielded : World := (arena.run shieldOps).getD arena

/-- The arena with Alice and Cara down to 5 stamina. -/
def tired : World :=
  fun i => if i = 1 then arena 1 else { arena i with stamina_ := 5 }

/-- A fighter at full stamina carrying a Food of the largest `int` value. -/
def gourmand : Player :=
  { Fighter.new "Alice" with items_ := [⟨.Food, "Feast", 2147483647⟩] }

/-- Alice picks up a weapon of the largest `int` value and equips it. -/
def bladeOps : List Op :=
  [.pickup 0 ⟨.Weapon, "Blade", 2147483647⟩, .use 0 "Blade"]

/-- The store after `bladeOps`. -/
def berserk : World := (arena.run bladeOps).getD arena

/-- Alice picks up a 15-point sword and equips it (scenario A before the blow). -/
def armOps : List Op :=
  [.pickup 0 ⟨.Weapon, "Sword", 15⟩, .use 0 "Sword"]

/-- The store after `armOps`. -/
def armed : World := (arena.run armOps).getD arena

/-- A fighter at 90 stamina carrying a 30-point bread (scenario C). -/
def peckish : Player :=
  { Fighter.new "Alice" with stamina_ := 90, items_ := [⟨.Food, "Bread", 30⟩] }

/-- A fighter who carries a 5-point shield and has equipped it once. -/
def guarded : Player :=
  { Fighter.new "Bob" with armour_ := ["Shield"], items_ := [⟨.Armour, "Shield", 5⟩] }

/-- A healer who carries a 15-point sword and has equipped it. -/
def swordHealer : Player :=
  { Healer.new "Cara" with weapon_ := "Sword", items_ := [⟨.Weapon, "Sword", 15⟩] }

/-- A fighter carrying a bread and a sword. -/
def packed : Player :=
  { Fighter.new "Alice" with items_ := [⟨.Food, "Bread", 30⟩, ⟨.Weapon, "Sword", 15⟩] }


/-! ## Machine integers and iterators: basic facts -/

theorem wrap32_of_isInt {x : Int} (h : IsInt x) : wrap32 x = x := by
  unfold IsInt at h
  unfold wrap32
  omega

theorem isInt_wrap32 (x : Int) : IsInt (wrap32 x) := by
  unfold IsInt wrap32
  omega

theorem wrap32_add_wrap32 (x y : Int) : wrap32 (wrap32 x + y) = wrap32 (x + y) := by
  unfold wrap32; omega

theorem isub_ten {s : Int} (hst : 10 ≤ s) (hint : IsInt s) : isub s 10 = s - 10 := by
  unfold isub; apply wrap32_of_isInt; unfold IsInt at *; omega

theorem find_if_le_length (pred : Object → Bool) (l : List Object) :
    find_if pred l ≤ l.length := by
  induction l with
  | nil => simp [find_if]
  | cons o rest ih =>
    simp only [find_if]
    split
    · simp
    · simp only [List.length_cons]; omega

theorem getElem?_find_if (pred : Object → Bool) (l : List Object) :
    l[find_if pred l]? = l.find? pred := by
  induction l with
  | nil => simp [find_if]
  | cons o rest ih =>
    simp only [find_if]
    by_cases h : pred o
    · simp [h]
    · simp [h, ih]

theorem find_if_eq_length_iff (pred : Object → Bool) (l : List Object) :
    find_if pred l = l.length ↔ ∀ o ∈ l, pred o = false := by
  induction l with
  | nil => simp [find_if]
  | cons o rest ih =>
    simp only [find_if]
    by_cases h : pred o
    · simp [h]
    · simp [h, ih]

theorem eraseIdx_find_if (pred : Object → Bool) (l : List Object) :
    l.eraseIdx (find_if pred l) = l.eraseP pred := by
  induction l with
  | nil => simp [find_if]
  | cons o rest ih =>
    simp only [find_if]
    by_cases h : pred o
    · simp [h]
    · simp [h, ih]

/-- Everything before the position `find_if` returns fails the predicate. -/
theorem not_pred_of_lt_find_if (pred : Object → Bool) (l : List Object) (j : Nat) (o : Object)
    (hj : j < find_if pred l) (ho : l[j]? = some o) : pred o = false := by
  induction l generalizing j with
  | nil => simp at ho
  | cons a rest ih =>
    simp only [find_if] at hj
    by_cases h : pred a
    · simp [h] at hj
    · simp only [h] at hj
      cases j with
      | zero => simp at ho; subst ho; simpa using h
      | succ j =>
        simp at ho
        exact ih j (by simpa using hj) ho

/-- The position of an element satisfying the predicate, with no earlier one doing so,
is the position `find_if` returns. -/
theorem find_if_eq_of_first (pred : Object → Bool) (l : List Object) (i : Nat) (o : Object)
    (ho : l[i]? = some o) (hp : pred o = true)
    (hfirst : ∀ j o2, j < i → l[j]? = some o2 → pred o2 = false) :
    find_if pred l = i := by
  induction l generalizing i with
  | nil => simp at ho
  | cons a rest ih =>
    simp only [find_if]
    cases i with
    | zero => simp at ho; subst ho; simp [hp]
    | succ i =>
      have ha : pred a = false := hfirst 0 a (by omega) (by simp)
      simp only [ha]
      simp at ho
      have := ih i ho (fun j o2 hj h2 => hfirst (j+1) o2 (by omega) (by simpa using h2))
      simp [this]

theorem find?_eraseP_of_disjoint (p q : Object → Bool) (l : List Object)
    (h : ∀ x, q x = true → p x = false) : (l.eraseP q).find? p = l.find? p := by
  induction l with
  | nil => rfl
  | cons a rest ih =>
    by_cases hq : q a = true
    · simp [List.eraseP_cons, hq, List.find?_cons, h a hq]
    · simp [List.eraseP_cons, hq, List.find?_cons, ih]

theorem find?_append_of_some (p : Object → Bool) (l : List Object) (o x : Object)
    (h : l.find? p = some x) : (l ++ [o]).find? p = some x := by
  simp [List.find?_append, h]

/-! ## The store: reading after writing -/

theorem World.set_apply (w : World) (i k : Nat) (p : Player) :
    (w.set i p) k = if k = i then p else w k := rfl

theorem World.set_same (w : World) (i : Nat) (p : Player) : (w.set i p) i = p := by
  simp [World.set_apply]

theorem World.health_set_stamina (w : World) (i k : Nat) (s : Int) :
    ((w.set i { w i with stamina_ := s }) k).health_ = (w k).health_ := by
  by_cases hk : k = i
  · subst hk; simp [World.set_apply]
  · simp [World.set_apply, hk]

theorem World.stamina_set_health (w : World) (i k : Nat) (h : Int) :
    ((w.set i { w i with health_ := h }) k).stamina_ = (w k).stamina_ := by
  by_cases hk : k = i
  · subst hk; simp [World.set_apply]
  · simp [World.set_apply, hk]

theorem World.sameExcept_refl (w : World) (self other : Nat) : w.SameExcept w self other := by
  intro k; simp

/-- Writing only the stamina of one player changes nobody's health or equipment. -/
theorem World.sameExcept_set_stamina (w : World) (self other : Nat) (s : Int) :
    w.SameExcept (w.set self { w self with stamina_ := s }) self other := by
  intro k
  by_cases hks : k = self
  · subst hks; simp [World.set_apply]
  · simp [World.set_apply, hks]

theorem World.sameExcept_set_health (w : World) (self other : Nat) (h : Int) :
    w.SameExcept (w.set other { w other with health_ := h }) self other := by
  intro k
  by_cases hko : k = other
  · subst hko; simp [World.set_apply]
  · simp [World.set_apply, hko]

theorem World.sameExcept_trans {w w1 w2 : World} {self other : Nat}
    (h1 : w.SameExcept w1 self other) (h2 : w1.SameExcept w2 self other) :
    w.SameExcept w2 self other := by
  intro k
  obtain ⟨a1, a2, a3, a4, a5, a6, a7⟩ := h1 k
  obtain ⟨b1, b2, b3, b4, b5, b6, b7⟩ := h2 k
  refine ⟨b1.trans a1, b2.trans a2, b3.trans a3, b4.trans a4, b5.trans a5, ?_, ?_⟩
  · intro hk; exact (b6 hk).trans (a6 hk)
  · intro hk; exact (b7 hk).trans (a7 hk)

/-! ## Using an item: how the call returns -/

/-- `Food::use` with the two branches of the stamina update merged. -/
theorem Food.use_eq (self : Object) (owner : Player) :
    Food.use self owner =
      match owner.items_[find_if (fun food => food.getName == self.name_) owner.items_]? with
      | some _ => .ok { owner with
          stamina_ := if iadd owner.stamina_ self.value_ > 100 then 100
                      else iadd owner.stamina_ self.value_
          items_ := owner.items_.eraseIdx
            (find_if (fun food => food.getName == self.name_) owner.items_) }
      | none => .error .undefined := by
  unfold Food.use
  by_cases h : iadd owner.stamina_ self.value_ > 100
  · simp only [h, if_true]
  · simp only [h, if_false]

/-- An object found in the inventory under its own name can always be used. -/
theorem Object.use_ok_of_first (o : Object) (p : Player)
    (h : p.items_[find_if (fun x => x.getName == o.name_) p.items_]? = some o) :
    ∃ p1, o.use p = .ok p1 := by
  unfold Object.use
  cases hc : o.cls with
  | Food => simp only [Food.use_eq, h]; exact ⟨_, rfl⟩
  | Weapon => exact ⟨_, rfl⟩
  | Armour => exact ⟨_, rfl⟩

/-- A living player holding no item of the given name: `use` returns false and the
player is unchanged. -/
theorem Player.use_absent (p : Player) (name : String) (hlive : p.health_ ≠ 0)
    (h : ∀ o ∈ p.items_, o.getName ≠ name) : p.use name = .ok (false, p) := by
  have hlen : find_if (fun object => object.getName == name) p.items_ = p.items_.length :=
    (find_if_eq_length_iff _ _).2 (fun o ho => by simpa using h o ho)
  simp [Player.use, hlive, hlen]

/-- A living player using a name: the effect applied is that of the first item of that
name, and `use` returns true. -/
theorem Player.use_first (p : Player) (name : String) (hlive : p.health_ ≠ 0)
    (i : Nat) (o : Object) (hi : p.items_[i]? = some o) (hn : o.getName = name)
    (hfirst : ∀ (j : Nat) (o2 : Object),
      j < i → p.items_[j]? = some o2 → o2.getName ≠ name) :
    ∃ p1, o.use p = .ok p1 ∧ p.use name = .ok (true, p1) := by
  have hidx : find_if (fun object => object.getName == name) p.items_ = i :=
    find_if_eq_of_first _ _ i o hi (by simpa using hn)
      (fun j o2 hlt h2 => by simpa using hfirst j o2 hlt h2)
  have hlt : i < p.items_.length := (List.getElem?_eq_some_iff.1 hi).1
  have hself : p.items_[find_if (fun x => x.getName == o.name_) p.items_]? = some o := by
    have : o.name_ = name := hn
    rw [this, hidx]; exact hi
  obtain ⟨p1, hp1⟩ := Object.use_ok_of_first o p hself
  refine ⟨p1, hp1, ?_⟩
  have hne : i ≠ p.items_.length := by omega
  simp [Player.use, hlive, hidx, hne, hi, hp1]

/-- A living player holding an item of the given name: `use` returns true. -/
theorem Player.use_present (p : Player) (name : String) (hlive : p.health_ ≠ 0)
    (h : ∃ o ∈ p.items_, o.getName = name) : ∃ p1, p.use name = .ok (true, p1) := by
  obtain ⟨o, ho, hname⟩ := h
  have hfind := getElem?_find_if (fun object => object.getName == name) p.items_
  cases hf : p.items_.find? (fun object => object.getName == name) with
  | none =>
    rw [List.find?_eq_none] at hf
    exact absurd (by simpa using hname) (hf o ho)
  | some o1 =>
    rw [hf] at hfind
    have hp : o1.getName = name := by
      have := List.find?_some hf
      simpa using this
    obtain ⟨p1, _, h2⟩ := Player.use_first p name hlive _ o1 hfind hp
      (fun j o2 hlt h2 => by
        have := not_pred_of_lt_find_if _ _ j o2 hlt h2
        simpa using this)
    exact ⟨p1, h2⟩

/-- A living player: `use` returns, whatever the name. -/
theorem Player.use_returns (p : Player) (name : String) (hlive : p.health_ ≠ 0) :
    ∃ r, p.use name = .ok r := by
  by_cases h : ∃ o ∈ p.items_, o.getName = name
  · obtain ⟨p1, hp1⟩ := Player.use_present p name hlive h
    exact ⟨_, hp1⟩
  · exact ⟨_, Player.use_absent p name hlive (fun o ho hn => h ⟨o, ho, hn⟩)⟩

/-- The ways `Player::use` can return. -/
theorem Player.use_ok_cases (p p1 : Player) (name : String) (b : Bool)
    (h : p.use name = .ok (b, p1)) :
    (b = false ∧ p1 = p ∧ p.firstNamed name = none) ∨
    (b = true ∧ ∃ o, p.firstNamed name = some o ∧ o.use p = .ok p1) := by
  unfold Player.use at h
  unfold Player.firstNamed
  rw [← getElem?_find_if]
  split_ifs at h with h0
  simp only [] at h
  split_ifs at h with h1
  · split at h
    · rename_i object hobj
      split at h
      · rename_i p2 hp2
        cases h
        exact Or.inr ⟨rfl, object, hobj, hp2⟩
      · cases h
    · cases h
  · cases h
    refine Or.inl ⟨rfl, rfl, ?_⟩
    rw [getElem?_find_if, List.find?_eq_none]
    have := (find_if_eq_length_iff _ _).1 (not_not.1 h1)
    intro x hx
    simp [this x hx]

theorem Player.firstNamed_name (p : Player) (name : String) (o : Object)
    (h : p.firstNamed name = some o) : o.name_ = name := by
  unfold Player.firstNamed at h
  have := List.find?_some h
  simpa [Object.getName] using this

/-- The exact result of `use(n)` when the first inventory item named `n` is a Food. -/
theorem Player.use_food (p : Player) (n : String) (i : Nat) (o : Object)
    (hlive : p.health_ ≠ 0) (hi : p.items_[i]? = some o) (hn : o.getName = n)
    (hfirst : ∀ (j : Nat) (o2 : Object), j < i → p.items_[j]? = some o2 → o2.getName ≠ n)
    (hc : o.cls = .Food) :
    p.use n = .ok (true, { p with
      stamina_ := if iadd p.stamina_ o.value_ > 100 then 100 else iadd p.stamina_ o.value_
      items_ := p.items_.eraseIdx i }) := by
  have hidx : find_if (fun object => object.getName == n) p.items_ = i :=
    find_if_eq_of_first _ _ i o hi (by simpa using hn)
      (fun j o2 hlt h2 => by simpa using hfirst j o2 hlt h2)
  have hlt : i < p.items_.length := (List.getElem?_eq_some_iff.1 hi).1
  have hne : i ≠ p.items_.length := by omega
  have hn2 : o.name_ = n := hn
  simp [Player.use, hlive, hidx, hne, hi, Object.use, hc, Food.use_eq, hn2]

/-- Food consumption as the spec words it, for a Food whose value added to the stamina
still fits a 32-bit `int`: stamina becomes `s + min(v, 100 - s)` and the inventory loses
exactly the item used. -/
theorem Player.use_food_in_range (p : Player) (n : String) (i : Nat) (o : Object)
    (hlive : p.health_ ≠ 0) (hi : p.items_[i]? = some o) (hn : o.getName = n)
    (hfirst : ∀ (j : Nat) (o2 : Object), j < i → p.items_[j]? = some o2 → o2.getName ≠ n)
    (hc : o.cls = .Food) (hs0 : 0 ≤ p.stamina_) (hs1 : p.stamina_ ≤ 100)
    (hv : 0 ≤ o.value_) (hfit : p.stamina_ + o.value_ ≤ 2147483647) :
    p.use n = .ok (true, { p with
      stamina_ := p.stamina_ + min o.value_ (100 - p.stamina_)
      items_ := p.items_.eraseIdx i }) ∧
    (p.items_.eraseIdx i).length + 1 = p.items_.length := by
  have hadd : iadd p.stamina_ o.value_ = p.stamina_ + o.value_ := by
    unfold iadd; apply wrap32_of_isInt; unfold IsInt; omega
  have hlt : i < p.items_.length := (List.getElem?_eq_some_iff.1 hi).1
  refine ⟨?_, ?_⟩
  · rw [Player.use_food p n i o hlive hi hn hfirst hc, hadd]
    congr 3
    split_ifs <;> omega
  · rw [List.length_eraseIdx_of_lt hlt]; omega

/-- Scenario C: a 30-point bread eaten at stamina 90 raises the stamina to 100, not 120,
and leaves the inventory empty. -/
theorem Player.use_food_scenario_c :
    peckish.use "Bread" = .ok (true, { peckish with stamina_ := 100, items_ := [] }) :=
  (Player.use_food_in_range peckish "Bread" 0 ⟨.Food, "Bread", 30⟩ (by decide) rfl rfl
    (fun j _ hj => absurd hj (Nat.not_lt_zero j)) rfl (by decide) (by decide) (by decide)
    (by decide)).1

/-! ## Equipped names keep resolving -/

theorem Player.equipped_new (c : PlayerClass) (name : String) : (Player.new c name).Equipped := by
  constructor
  · intro h; exact absurd rfl h
  · intro n hn; simp [Player.new] at hn

theorem Player.equipped_of_same {p p1 : Player} (h : p.Equipped)
    (hw : p1.weapon_ = p.weapon_) (ha : p1.armour_ = p.armour_) (hi : p1.items_ = p.items_) :
    p1.Equipped := by
  unfold Player.Equipped Player.firstNamed at *
  rw [hw, ha, hi]
  exact h

theorem Player.pickup_equipped (p p1 : Player) (o : Object) (h : p.Equipped)
    (hp : p.pickup o = .ok p1) : p1.Equipped := by
  unfold Player.pickup at hp
  split_ifs at hp with h0
  cases hp
  unfold Player.Equipped Player.firstNamed at *
  constructor
  · intro hw
    obtain ⟨x, hx, hc⟩ := h.1 hw
    exact ⟨x, find?_append_of_some _ _ _ _ hx, hc⟩
  · intro n hn
    obtain ⟨x, hx, hc⟩ := h.2 n hn
    exact ⟨x, find?_append_of_some _ _ _ _ hx, hc⟩

theorem Object.use_keeps_equipped (o : Object) (p p1 : Player) (h : p.Equipped)
    (ho : p.firstNamed o.name_ = some o) (hu : o.use p = .ok p1) : p1.Equipped := by
  unfold Object.use at hu
  cases hc : o.cls with
  | Food =>
    simp only [hc, Food.use_eq] at hu
    split at hu
    · cases hu
      unfold Player.Equipped Player.firstNamed at *
      simp only [eraseIdx_find_if]
      have key : ∀ n x, List.find? (fun y : Object => y.getName == n) p.items_ = some x →
          x.cls ≠ .Food →
          List.find? (fun y : Object => y.getName == n)
            (p.items_.eraseP (fun food => food.getName == o.name_)) = some x := by
        intro n x hx hcls
        rw [find?_eraseP_of_disjoint]
        · exact hx
        · intro y hy
          by_contra hyn
          have h1 : y.getName = o.name_ := by simpa using hy
          have h2 : y.getName = n := by simpa using hyn
          have hn : n = o.name_ := h2.symm.trans h1
          subst hn
          rw [ho] at hx
          cases hx
          exact hcls hc
      constructor
      · intro hw
        obtain ⟨x, hx, hxc⟩ := h.1 hw
        exact ⟨x, key _ x hx (by rw [hxc]; decide), hxc⟩
      · intro n hn
        obtain ⟨x, hx, hxc⟩ := h.2 n hn
        exact ⟨x, key _ x hx (by rw [hxc]; decide), hxc⟩
    · cases hu
  | Weapon =>
    simp only [hc, Weapon.use] at hu
    cases hu
    exact ⟨fun _ => ⟨o, ho, hc⟩, h.2⟩
  | Armour =>
    simp only [hc, Armour.use] at hu
    cases hu
    refine ⟨h.1, ?_⟩
    intro n hn
    simp only [List.mem_append, List.mem_singleton] at hn
    rcases hn with hn | hn
    · exact h.2 n hn
    · subst hn; exact ⟨o, ho, hc⟩

theorem Player.use_equipped (p p1 : Player) (name : String) (b : Bool) (h : p.Equipped)
    (hu : p.use name = .ok (b, p1)) : p1.Equipped := by
  rcases Player.use_ok_cases p p1 name b hu with ⟨_, hp, _⟩ | ⟨_, o, ho, hou⟩
  · rw [hp]; exact h
  · have hn := Player.firstNamed_name p name o ho
    exact Object.use_keeps_equipped o p p1 h (by rw [hn]; exact ho) hou

/-! ## Attack and heal: frames and closed forms -/

/-- Whatever `attack` returns, it has written at most the attacker's stamina and the
target's health. -/
theorem Fighter.attack_frame (w w1 : World) (self other : Nat) (b : Bool)
    (h : Fighter.attack w self other = .ok (b, w1)) : w.SameExcept w1 self other := by
  unfold Fighter.attack at h
  split_ifs at h with h1 h2 h3
  · cases h; exact World.sameExcept_refl w self other
  · have hcost := World.sameExcept_set_stamina w self other (isub (w self).stamina_ 10)
    simp only [] at h
    split at h
    · cases h
    · split at h
      · cases h
      · split_ifs at h with h4 h5 h6
        · cases h
          exact World.sameExcept_trans hcost (World.sameExcept_trans
            (World.sameExcept_set_health _ self other _)
            (World.sameExcept_set_health _ self other _))
        · cases h
          exact World.sameExcept_trans hcost (World.sameExcept_set_health _ self other _)
        · cases h; exact hcost
        · cases h; exact hcost

/-- Whatever `heal` returns, it has written at most the healer's stamina and the
target's health. -/
theorem Healer.heal_frame (w w1 : World) (self other : Nat) (b : Bool)
    (h : Healer.heal w self other = .ok (b, w1)) : w.SameExcept w1 self other := by
  unfold Healer.heal at h
  have hcost := World.sameExcept_set_stamina w self other (isub (w self).stamina_ 10)
  split_ifs at h with h1 h2 h3 h4
  · cases h; exact World.sameExcept_refl w self other
  · cases h; exact hcost
  · cases h
    simp only []
    split_ifs
    · exact World.sameExcept_trans hcost (World.sameExcept_trans
        (World.sameExcept_set_health _ self other _)
        (World.sameExcept_set_health _ self other _))
    · exact World.sameExcept_trans hcost (World.sameExcept_set_health _ self other _)

theorem Fighter.attackValue_set_stamina (p : Player) (s : Int) :
    Fighter.attackValue { p with stamina_ := s } = Fighter.attackValue p := rfl

theorem Fighter.defenceValue_set_stamina (p : Player) (s : Int) :
    Fighter.defenceValue { p with stamina_ := s } = Fighter.defenceValue p := rfl

theorem Fighter.defenceValue_after_cost (w : World) (self other : Nat) (s : Int) :
    Fighter.defenceValue ((w.set self { w self with stamina_ := s }) other) =
      Fighter.defenceValue (w other) := by
  by_cases hk : other = self
  · subst hk; simp only [World.set_apply, if_true]; rfl
  · simp only [World.set_apply, hk, if_false]

/-- A living fighter with at least 10 stamina whose computed attack value does not
exceed the computed defence value of the living target: `attack` returns false and
only charges the stamina. -/
theorem Fighter.attack_absorbed (w : World) (self other : Nat)
    (hself : (w self).health_ ≠ 0) (hother : (w other).health_ ≠ 0)
    (hst : 10 ≤ (w self).stamina_) (hint : IsInt (w self).stamina_)
    (a d : Int) (hatk : Fighter.attackValue (w self) = .ok a)
    (hdef : Fighter.defenceValue (w other) = .ok d) (hle : a ≤ d) :
    Fighter.attack w self other =
      .ok (false, w.set self { w self with stamina_ := (w self).stamina_ - 10 }) := by
  have hlow : ¬ (w self).stamina_ < 10 := by omega
  have hsub := isub_ten hst hint
  have hgt : ¬ a > d := by omega
  simp only [Fighter.attack, Player.getHealth, hself, hother, hlow, if_false, hsub,
    Fighter.defenceValue_after_cost]
  simp only [World.set_apply, if_true, Fighter.attackValue_set_stamina, hatk, hdef, hgt,
    if_false, ite_self]

/-- A living fighter with at least 10 stamina whose computed attack value exceeds the
computed defence value of the living target. -/
theorem Fighter.attack_hit (w : World) (self other : Nat)
    (hself : (w self).health_ ≠ 0) (hother : (w other).health_ ≠ 0)
    (hst : 10 ≤ (w self).stamina_) (hint : IsInt (w self).stamina_)
    (a d : Int) (hatk : Fighter.attackValue (w self) = .ok a)
    (hdef : Fighter.defenceValue (w other) = .ok d) (hgt : a > d) :
    ∃ w1, Fighter.attack w self other = .ok (true, w1) ∧
      (w1 self).stamina_ = (w self).stamina_ - 10 ∧
      (w1 other).health_ = max 0 (isub (w other).health_ (isub a d)) := by
  have hlow : ¬ (w self).stamina_ < 10 := by omega
  have hsub := isub_ten hst hint
  simp only [Fighter.attack, Player.getHealth, hself, hother, hlow, if_false, hsub,
    Fighter.defenceValue_after_cost]
  simp only [World.set_same, Fighter.attackValue_set_stamina, hatk, hdef, hgt, if_true,
    World.health_set_stamina]
  split_ifs with hneg
  · refine ⟨_, rfl, ?_, ?_⟩
    · by_cases hk : self = other
      · subst hk; simp [World.set_apply]
      · simp [World.set_apply, hk]
    · rw [World.set_same]
      simp only []
      omega
  · refine ⟨_, rfl, ?_, ?_⟩
    · by_cases hk : self = other
      · subst hk; simp [World.set_apply]
      · simp [World.set_apply, hk]
    · rw [World.set_same]
      simp only []
      omega

/-- The attack value the code computes is the spec's attack power, wrapped to 32 bits. -/
theorem Fighter.attackValue_eq_spec (p : Player) (atk : Int)
    (h : Spec.attackPower p = some atk) : Fighter.attackValue p = .ok (wrap32 atk) := by
  unfold Spec.attackPower at h
  unfold Fighter.attackValue
  by_cases hw : p.weapon_ = "none"
  · simp only [hw, if_true] at h
    simp only [hw, ne_eq, not_true_eq_false, if_false]
    cases h
    rfl
  · simp only [hw, if_false] at h
    simp only [hw, ne_eq, not_false_eq_true, if_true, getElem?_find_if]
    unfold Spec.itemValue at h
    have hfun : (fun object : Object => object.getName == p.weapon_) =
        (fun o : Object => o.name_ == p.weapon_) := rfl
    rw [hfun]
    cases hf : p.items_.find? (fun o => o.name_ == p.weapon_) with
    | none => simp [hf] at h
    | some o =>
      simp only [hf, Option.map_some', Option.some.injEq] at h
      subst h
      rfl

/-- The defence loop computes the spec's sum, wrapped to 32 bits. -/
theorem Fighter.defenceLoop_eq_spec (items : List Object) (names : List String)
    (acc s : Int) (hacc : IsInt acc) (h : Spec.defenceSum items names = some s) :
    Fighter.defenceLoop items names acc = .ok (wrap32 (acc + s)) := by
  induction names generalizing acc s with
  | nil =>
    simp only [Spec.defenceSum, Option.some.injEq] at h
    subst h
    simp [Fighter.defenceLoop, wrap32_of_isInt hacc]
  | cons name rest ih =>
    simp only [Spec.defenceSum] at h
    cases hv : Spec.itemValue items name with
    | none => simp [hv] at h
    | some v =>
      cases hs : Spec.defenceSum items rest with
      | none => simp [hv, hs] at h
      | some s1 =>
        simp only [hv, hs, Option.some.injEq] at h
        subst h
        unfold Spec.itemValue at hv
        have hfun : (fun object : Object => object.getName == name) =
            (fun o : Object => o.name_ == name) := rfl
        simp only [Fighter.defenceLoop, getElem?_find_if, hfun]
        cases hf : items.find? (fun o => o.name_ == name) with
        | none => simp [hf] at hv
        | some o =>
          simp only [hf, Option.map_some', Option.some.injEq] at hv
          simp only []
          rw [ih (iadd acc o.getValue) s1 (isInt_wrap32 _) hs]
          simp only [iadd, Object.getValue, hv, wrap32_add_wrap32]
          congr 2
          omega

theorem Fighter.defenceValue_eq_spec (p : Player) (d : Int)
    (h : Spec.defencePower p = some d) : Fighter.defenceValue p = .ok (wrap32 d) := by
  unfold Fighter.defenceValue
  rw [Fighter.defenceLoop_eq_spec p.items_ p.armour_ 0 d (by decide) h]
  simp

/-- Attack resolution as the spec words it, when the spec's attack and defence powers
fit a 32-bit `int`: the stamina drops by 10, `attack` returns true exactly when the
attack power exceeds the defence power, the target then loses the difference (health
clamped at 0), and nothing else changes. -/
theorem Fighter.attack_in_range (w : World) (self other : Nat)
    (hself : (w self).health_ ≠ 0) (hpos : 0 < (w other).health_)
    (hh : IsInt (w other).health_)
    (hst : 10 ≤ (w self).stamina_) (hint : IsInt (w self).stamina_)
    (atk dfc : Int) (hatk : Spec.attackPower (w self) = some atk)
    (hdef : Spec.defencePower (w other) = some dfc)
    (hatkfit : IsInt atk) (hdfcfit : IsInt dfc) (hdfc0 : 0 ≤ dfc) :
    ∃ w1, Fighter.attack w self other = .ok (decide (atk > dfc), w1) ∧
      (w1 self).stamina_ = (w self).stamina_ - 10 ∧
      (w1 other).health_ =
        (if atk > dfc then max 0 ((w other).health_ - (atk - dfc)) else (w other).health_) ∧
      w.SameExcept w1 self other := by
  have hother : (w other).health_ ≠ 0 := by omega
  have ha := Fighter.attackValue_eq_spec _ _ hatk
  have hd := Fighter.defenceValue_eq_spec _ _ hdef
  rw [wrap32_of_isInt hatkfit] at ha
  rw [wrap32_of_isInt hdfcfit] at hd
  by_cases hgt : atk > dfc
  · obtain ⟨w1, h1, h2, h3⟩ :=
      Fighter.attack_hit w self other hself hother hst hint atk dfc ha hd hgt
    refine ⟨w1, ?_, h2, ?_, Fighter.attack_frame w w1 self other true h1⟩
    · simpa [hgt] using h1
    · have e1 : isub atk dfc = atk - dfc := by
        unfold isub; apply wrap32_of_isInt; unfold IsInt at *; omega
      have e2 : isub (w other).health_ (atk - dfc) = (w other).health_ - (atk - dfc) := by
        unfold isub; apply wrap32_of_isInt; unfold IsInt at *; omega
      rw [h3, e1, e2]; simp [hgt]
  · have h1 := Fighter.attack_absorbed w self other hself hother hst hint atk dfc ha hd
      (by omega)
    refine ⟨_, ?_, ?_, ?_, Fighter.attack_frame w _ self other false h1⟩
    · simpa [hgt] using h1
    · simp [World.set_apply]
    · by_cases hk : other = self
      · subst hk; simp [World.set_apply, hgt]
      · simp [World.set_apply, hk, hgt]

/-- Scenario A: Alice, with the 15-point sword equipped, strikes the unarmoured Bob:
`attack` returns true, Bob drops to 75 health and Alice to 90 stamina. -/
theorem Fighter.attack_scenario_a :
    ∃ w1, Fighter.attack armed 0 1 = .ok (true, w1) ∧
      (w1 0).stamina_ = 90 ∧ (w1 1).health_ = 75 ∧ armed.SameExcept w1 0 1 :=
  Fighter.attack_in_range armed 0 1 (by decide) (by decide) (by decide) (by decide)
    (by decide) 25 0 (by decide) (by decide) (by decide) (by decide) (by decide)

/-! ## Reachable stores -/

theorem World.equipped_of_sameExcept {w w1 : World} {self other : Nat}
    (hf : w.SameExcept w1 self other) (h : ∀ i, (w i).Equipped) : ∀ i, (w1 i).Equipped := by
  intro i
  obtain ⟨_, _, hw, ha, hi, _, _⟩ := hf i
  exact Player.equipped_of_same (h i) hw ha hi

theorem World.set_equipped (w : World) (i : Nat) (p : Player)
    (h : ∀ k, (w k).Equipped) (hp : p.Equipped) : ∀ k, ((w.set i p) k).Equipped := by
  intro k
  by_cases hk : k = i
  · subst hk; simpa [World.set_apply] using hp
  · simpa [World.set_apply, hk] using h k

/-- One call keeps every equipped name resolvable. -/
theorem World.step_equipped (w w1 : World) (op : Op) (h : ∀ i, (w i).Equipped)
    (hs : w.step op = some w1) : ∀ i, (w1 i).Equipped := by
  unfold World.step at hs
  split at hs
  · rename_i r w2 hcall
    cases hs
    cases op with
    | pickup p o =>
      simp only [World.call] at hcall
      split at hcall
      · rename_i p1 hp1
        cases hcall
        exact World.set_equipped w p p1 h (Player.pickup_equipped _ _ o (h p) hp1)
      · cases hcall
    | use p name =>
      simp only [World.call] at hcall
      split at hcall
      · rename_i b p1 hp1
        cases hcall
        exact World.set_equipped w p p1 h (Player.use_equipped _ _ name b (h p) hp1)
      · cases hcall
    | attack self other =>
      simp only [World.call] at hcall
      split at hcall
      · rename_i b w3 hw3
        cases hcall
        exact World.equipped_of_sameExcept (Fighter.attack_frame w _ self other b hw3) h
      · cases hcall
    | heal self other =>
      simp only [World.call] at hcall
      split at hcall
      · rename_i b w3 hw3
        cases hcall
        exact World.equipped_of_sameExcept (Healer.heal_frame w _ self other b hw3) h
      · cases hcall
  · cases hs
  · cases hs; exact h

/-- In every store a driver can reach, every equipped name of every player resolves. -/
theorem Reachable.equipped {w : World} (hw : Reachable w) : ∀ i, (w i).Equipped := by
  induction hw with
  | fresh classes names => intro i; exact Player.equipped_new _ _
  | step op _ _ hstep ih => exact World.step_equipped _ _ op ih hstep

theorem Fighter.attackValue_ok (p : Player) (h : p.Equipped) :
    ∃ a, Fighter.attackValue p = .ok a := by
  unfold Fighter.attackValue
  by_cases hw : p.weapon_ = "none"
  · exact ⟨10, by simp [hw]⟩
  · obtain ⟨o, ho, _⟩ := h.1 hw
    unfold Player.firstNamed at ho
    exact ⟨iadd 10 o.getValue, by simp [hw, getElem?_find_if, ho]⟩

theorem Fighter.defenceLoop_ok (items : List Object) (names : List String) (acc : Int)
    (h : ∀ n ∈ names, ∃ o, items.find? (fun x => x.getName == n) = some o) :
    ∃ d, Fighter.defenceLoop items names acc = .ok d := by
  induction names generalizing acc with
  | nil => exact ⟨acc, rfl⟩
  | cons name rest ih =>
    obtain ⟨o, ho⟩ := h name (List.mem_cons_self _ _)
    simp only [Fighter.defenceLoop, getElem?_find_if, ho]
    exact ih _ (fun n hn => h n (List.mem_cons_of_mem _ hn))

theorem Fighter.defenceValue_ok (p : Player) (h : p.Equipped) :
    ∃ d, Fighter.defenceValue p = .ok d := by
  unfold Fighter.defenceValue
  apply Fighter.defenceLoop_ok
  intro n hn
  obtain ⟨o, ho, _⟩ := h.2 n hn
  exact ⟨o, ho⟩

/-- Between living players whose equipped names resolve, `attack` returns. -/
theorem Fighter.attack_returns (w : World) (self other : Nat)
    (hself : (w self).health_ ≠ 0) (hother : (w other).health_ ≠ 0)
    (hes : (w self).Equipped) (heo : (w other).Equipped) :
    ∃ r, Fighter.attack w self other = .ok r := by
  obtain ⟨a, ha⟩ := Fighter.attackValue_ok _ hes
  obtain ⟨d, hd⟩ := Fighter.defenceValue_ok _ heo
  simp only [Fighter.attack, Player.getHealth, hself, hother, if_false,
    Fighter.defenceValue_after_cost]
  simp only [World.set_apply, if_true, Fighter.attackValue_set_stamina, ha, hd]
  split_ifs <;> exact ⟨_, rfl⟩

/-- Between living players, `heal` returns. -/
theorem Healer.heal_returns (w : World) (self other : Nat)
    (hself : (w self).health_ ≠ 0) (hother : (w other).health_ ≠ 0) :
    ∃ r, Healer.heal w self other = .ok r := by
  simp only [Healer.heal, Player.getHealth, hself, hother, if_false]
  split_ifs <;> exact ⟨_, rfl⟩

/-! ## The claims -/

/-- C1 (failing input). The store `afterFeast` is reached from freshly constructed
players by `pickup` of a Food constructed with the non-negative value 2147483647
followed by `use("Feast")`; Alice's stamina there is -2147483549, outside `[0,100]`:
the sum `stamina_ + value_` of `Food::use` overflows the 32-bit `int`, so the
comparison against 100 fails and the wrapped sum is stored. -/
theorem stamina_range_overflow :
    Reachable afterFeast ∧ (afterFeast 0).stamina_ = -2147483549 ∧
      ¬ (0 ≤ (afterFeast 0).stamina_ ∧ (afterFeast 0).stamina_ ≤ 100) := by
  have h0 : Reachable arena := Reachable.fresh _ _
  have h1 := Reachable.step (.pickup 0 ⟨.Food, "Feast", 2147483647⟩) h0
    ⟨by decide, by decide⟩ rfl
  have h2 := Reachable.step (.use 0 "Feast") h1 trivial rfl
  exact ⟨h2, by decide, by decide⟩

/-- C2. In every store a driver can reach, dead players are rejected with an exception,
never with `false`.  `pickup` and `use` throw exactly when the player's health is 0, and
then it is `logic_error("player is dead")` (the spec's DeadPlayer).  `attack` and `heal`
throw exactly when the actor's or the target's health is 0: `logic_error("Player is
dead.")` (DeadPlayer) when the actor's health is 0, and the `logic_error` naming the
target (TargetDead) when the actor is alive and the target's health is 0.  In every
other case the call returns normally. -/
theorem dead_player_rejected (w : World) (hw : Reachable w) (self other : Nat)
    (o : Object) (name : String) :
    (((∃ e, (w self).pickup o = .error e) ↔ (w self).health_ = 0) ∧
      ((w self).health_ = 0 → (w self).pickup o = .error (.logic_error "player is dead")) ∧
      ((w self).health_ ≠ 0 → ∃ p1, (w self).pickup o = .ok p1)) ∧
    (((∃ e, (w self).use name = .error e) ↔ (w self).health_ = 0) ∧
      ((w self).health_ = 0 → (w self).use name = .error (.logic_error "player is dead")) ∧
      ((w self).health_ ≠ 0 → ∃ r, (w self).use name = .ok r)) ∧
    (((∃ e, Fighter.attack w self other = .error e) ↔
        ((w self).health_ = 0 ∨ (w other).health_ = 0)) ∧
      ((w self).health_ = 0 →
        Fighter.attack w self other = .error (.logic_error "Player is dead.")) ∧
      ((w self).health_ ≠ 0 → (w other).health_ = 0 →
        Fighter.attack w self other =
          .error (.logic_error ("Stop! " ++ (w other).getName ++ " is already dead."))) ∧
      ((w self).health_ ≠ 0 → (w other).health_ ≠ 0 →
        ∃ r, Fighter.attack w self other = .ok r)) ∧
    (((∃ e, Healer.heal w self other = .error e) ↔
        ((w self).health_ = 0 ∨ (w other).health_ = 0)) ∧
      ((w self).health_ = 0 →
        Healer.heal w self other = .error (.logic_error "Player is dead.")) ∧
      ((w self).health_ ≠ 0 → (w other).health_ = 0 →
        Healer.heal w self other =
          .error (.logic_error ((w other).getName ++ " is dead."))) ∧
      ((w self).health_ ≠ 0 → (w other).health_ ≠ 0 →
        ∃ r, Healer.heal w self other = .ok r)) := by
  have hpick0 : (w self).health_ = 0 →
      (w self).pickup o = .error (.logic_error "player is dead") := by
    intro h; simp [Player.pickup, h]
  have hpick1 : (w self).health_ ≠ 0 → ∃ p1, (w self).pickup o = .ok p1 := by
    intro h
    exact ⟨{ w self with items_ := (w self).items_ ++ [o] }, by simp [Player.pickup, h]⟩
  have huse0 : (w self).health_ = 0 →
      (w self).use name = .error (.logic_error "player is dead") := by
    intro h; simp [Player.use, h]
  have huse1 : (w self).health_ ≠ 0 → ∃ r, (w self).use name = .ok r :=
    Player.use_returns (w self) name
  have hatk0 : (w self).health_ = 0 →
      Fighter.attack w self other = .error (.logic_error "Player is dead.") := by
    intro h; simp [Fighter.attack, h]
  have hatk1 : (w self).health_ ≠ 0 → (w other).health_ = 0 →
      Fighter.attack w self other =
        .error (.logic_error ("Stop! " ++ (w other).getName ++ " is already dead.")) := by
    intro h1 h2; simp [Fighter.attack, Player.getHealth, h1, h2]
  have hatk2 : (w self).health_ ≠ 0 → (w other).health_ ≠ 0 →
      ∃ r, Fighter.attack w self other = .ok r :=
    fun h1 h2 => Fighter.attack_returns w self other h1 h2
      (Reachable.equipped hw self) (Reachable.equipped hw other)
  have hheal0 : (w self).health_ = 0 →
      Healer.heal w self other = .error (.logic_error "Player is dead.") := by
    intro h; simp [Healer.heal, h]
  have hheal1 : (w self).health_ ≠ 0 → (w other).health_ = 0 →
      Healer.heal w self other =
        .error (.logic_error ((w other).getName ++ " is dead.")) := by
    intro h1 h2; simp [Healer.heal, Player.getHealth, h1, h2]
  have hheal2 : (w self).health_ ≠ 0 → (w other).health_ ≠ 0 →
      ∃ r, Healer.heal w self other = .ok r :=
    fun h1 h2 => Healer.heal_returns w self other h1 h2
  refine ⟨⟨⟨?_, ?_⟩, hpick0, hpick1⟩, ⟨⟨?_, ?_⟩, huse0, huse1⟩,
    ⟨⟨?_, ?_⟩, hatk0, hatk1, hatk2⟩, ⟨⟨?_, ?_⟩, hheal0, hheal1, hheal2⟩⟩
  · rintro ⟨e, he⟩
    by_contra h
    obtain ⟨p1, hp1⟩ := hpick1 h
    rw [hp1] at he; cases he
  · intro h; exact ⟨_, hpick0 h⟩
  · rintro ⟨e, he⟩
    by_contra h
    obtain ⟨r, hr⟩ := huse1 h
    rw [hr] at he; cases he
  · intro h; exact ⟨_, huse0 h⟩
  · rintro ⟨e, he⟩
    by_contra h
    push_neg at h
    obtain ⟨r, hr⟩ := hatk2 h.1 h.2
    rw [hr] at he; cases he
  · intro h
    by_cases h1 : (w self).health_ = 0
    · exact ⟨_, hatk0 h1⟩
    · exact ⟨_, hatk1 h1 (h.resolve_left h1)⟩
  · rintro ⟨e, he⟩
    by_contra h
    push_neg at h
    obtain ⟨r, hr⟩ := hheal2 h.1 h.2
    rw [hr] at he; cases he
  · intro h
    by_cases h1 : (w self).health_ = 0
    · exact ⟨_, hheal0 h1⟩
    · exact ⟨_, hheal1 h1 (h.resolve_left h1)⟩

/-- The store after the duel is one a driver can reach. -/
theorem afterDuel_reachable : Reachable afterDuel := by
  have h0 : Reachable arena := Reachable.fresh _ _
  have h1 := Reachable.step (.pickup 0 ⟨.Weapon, "Sword", 15⟩) h0 ⟨by decide, by decide⟩ rfl
  have h2 := Reachable.step (.use 0 "Sword") h1 trivial rfl
  have h3 := Reachable.step (.attack 0 1) h2 rfl rfl
  have h4 := Reachable.step (.attack 0 1) h3 rfl rfl
  have h5 := Reachable.step (.attack 0 1) h4 rfl rfl
  have h6 := Reachable.step (.attack 0 1) h5 rfl rfl
  exact h6

/-- C2 after the duel of scenario A repeated four times: Bob is dead, a further attack
by the living Alice throws the exception naming Bob, and Bob can no longer pick up. -/
theorem dead_player_rejected_witness :
    (afterDuel 0).health_ = 100 ∧ (afterDuel 1).health_ = 0 ∧
      Fighter.attack afterDuel 0 1 = .error (.logic_error "Stop! Bob is already dead.") ∧
      (afterDuel 1).pickup ⟨.Food, "Bread", 30⟩ = .error (.logic_error "player is dead") :=
  ⟨by decide, by decide, (dead_player_rejected afterDuel afterDuel_reachable 0 1
        ⟨.Food, "Bread", 30⟩ "Bread").2.2.1.2.2.1 (by decide) (by decide),
    (dead_player_rejected afterDuel afterDuel_reachable 1 1
        ⟨.Food, "Bread", 30⟩ "Bread").1.2.1 (by decide)⟩

/-- C3. Constructing a Food, Weapon or Armour with `(name, value)` throws
`invalid_argument` (the spec's InvalidValue) if and only if `value < 0`; for every
`value ≥ 0`, zero included, and every name it succeeds, and the object's `getName` is
that name and its `getValue` that value. -/
theorem Object.new_spec (c : ObjectClass) (name : String) (value : Int) :
    ((∃ what, Object.new c name value = .error (.invalid_argument what)) ↔ value < 0) ∧
    ((∃ e, Object.new c name value = .error e) ↔ value < 0) ∧
    (0 ≤ value → ∃ o, Object.new c name value = .ok o ∧ o.cls = c ∧
      o.getName = name ∧ o.getValue = value) ∧
    Food.new name value = Object.new .Food name value ∧
    Weapon.new name value = Object.new .Weapon name value ∧
    Armour.new name value = Object.new .Armour name value := by
  refine ⟨?_, ?_, ?_, rfl, rfl, rfl⟩
  · by_cases h : value < 0
    · simp [Object.new, h]
    · simp [Object.new, h]
  · by_cases h : value < 0
    · simp [Object.new, h]
    · simp [Object.new, h]
  · intro h
    have h0 : ¬ value < 0 := by omega
    exact ⟨{ cls := c, name_ := name, value_ := value }, by simp [Object.new, h0],
      rfl, rfl, rfl⟩

/-- C3 at `Armour("Shield", 0)`: a zero value is accepted. -/
theorem Object.new_spec_witness :
    ∃ o, Object.new .Armour "Shield" 0 = .ok o ∧ o.cls = .Armour ∧
      o.getName = "Shield" ∧ o.getValue = 0 :=
  (Object.new_spec .Armour "Shield" 0).2.2.1 (by decide)

/-- C4. For a living player and any name, `use(name)` returns true exactly when some
inventory item has that name; the effect applied is that of the first such item in
insertion order; and when no item has the name, `use` returns false and the player
(health, stamina, equipped weapon, equipped armour, inventory) is unchanged. -/
theorem Player.use_spec (p : Player) (name : String) (hlive : p.health_ ≠ 0) :
    ((∃ p1, p.use name = .ok (true, p1)) ↔ ∃ o ∈ p.items_, o.getName = name) ∧
    (∀ (i : Nat) (o : Object), p.items_[i]? = some o → o.getName = name →
        (∀ (j : Nat) (o2 : Object), j < i → p.items_[j]? = some o2 → o2.getName ≠ name) →
        ∃ p1, o.use p = .ok p1 ∧ p.use name = .ok (true, p1)) ∧
    ((∀ o ∈ p.items_, o.getName ≠ name) → p.use name = .ok (false, p)) := by
  refine ⟨⟨?_, Player.use_present p name hlive⟩,
    fun i o hi hn hf => Player.use_first p name hlive i o hi hn hf,
    Player.use_absent p name hlive⟩
  rintro ⟨p1, hp1⟩
  by_contra hcon
  have := Player.use_absent p name hlive (fun o ho hname => hcon ⟨o, ho, hname⟩)
  rw [this] at hp1
  simp at hp1

/-- C4 on a fighter carrying a bread and a sword (scenario E): `use("Unknown")` returns
false and changes nothing. -/
theorem Player.use_spec_witness : packed.use "Unknown" = .ok (false, packed) :=
  (Player.use_spec packed "Unknown" (by decide)).2.2 (by decide)

/-- C5 (failing input). A living fighter at stamina 100 whose only item is a Food of
value 2147483647: `use("Feast")` returns true and removes the item, but leaves the
stamina at -2147483549, where the claim's `s + min(v, 100 - s)` is 100.  The sum
`stamina_ + value_` of `Food::use` overflows the 32-bit `int`. -/
theorem Player.use_food_overflow :
    gourmand.health_ ≠ 0 ∧ gourmand.stamina_ = 100 ∧
      gourmand.items_[0]? = some ⟨.Food, "Feast", 2147483647⟩ ∧
      gourmand.use "Feast" =
        .ok (true, { gourmand with stamina_ := -2147483549, items_ := [] }) ∧
      gourmand.stamina_ + min 2147483647 (100 - gourmand.stamina_) = 100 :=
  ⟨by decide, rfl, rfl, rfl, by decide⟩

/-- C6 (failing input). Alice, a living fighter with 100 stamina, has picked up and
equipped a weapon of value 2147483647; Bob is fresh and wears no armour.  The spec's
attack power is 2147483657 and exceeds the defence power 0, so the claim has `attack`
return true and Bob's health drop to 0.  The code adds 10 to the value in a 32-bit
`int`, obtains -2147483639, returns false and leaves Bob at 100. -/
theorem Fighter.attack_overflow :
    ((berserk 0).cls = .Fighter ∧ (berserk 0).health_ = 100 ∧ (berserk 0).stamina_ = 100 ∧
      (berserk 1).health_ = 100) ∧
    Spec.attackPower (berserk 0) = some 2147483657 ∧
    Spec.defencePower (berserk 1) = some 0 ∧
    Fighter.attackValue (berserk 0) = .ok (-2147483639) ∧
    ∃ w1, Fighter.attack berserk 0 1 = .ok (false, w1) ∧
      (w1 1).health_ = 100 ∧ (w1 0).stamina_ = 90 :=
  ⟨by decide, by decide, by decide, rfl, _, rfl, rfl, rfl⟩

/-- C7. Tie rule: for a living fighter with at least 10 stamina and a living target
whose defence power equals the fighter's attack power, `attack` returns false, the
target's health is unchanged, the attacker's stamina drops by exactly 10, and nothing
else changes. -/
theorem Fighter.attack_tie (w : World) (self other : Nat)
    (hself : (w self).health_ ≠ 0) (hother : (w other).health_ ≠ 0)
    (hst : 10 ≤ (w self).stamina_) (hint : IsInt (w self).stamina_)
    (atk : Int) (hatk : Spec.attackPower (w self) = some atk)
    (hdef : Spec.defencePower (w other) = some atk) :
    ∃ w1, Fighter.attack w self other = .ok (false, w1) ∧
      (w1 other).health_ = (w other).health_ ∧
      (w1 self).stamina_ = (w self).stamina_ - 10 ∧
      w.SameExcept w1 self other := by
  refine ⟨_, Fighter.attack_absorbed w self other hself hother hst hint _ _
    (Fighter.attackValue_eq_spec _ _ hatk) (Fighter.defenceValue_eq_spec _ _ hdef)
    (Int.le_refl _), ?_, ?_, World.sameExcept_set_stamina w self other _⟩
  · by_cases hk : other = self
    · subst hk; simp [World.set_apply]
    · simp [World.set_apply, hk]
  · simp [World.set_apply]

/-- C7 in scenario D: the unarmed Alice (power 10) attacks Bob, who equipped
`Armour("Shield",5)` twice (defence 5+5=10). -/
theorem Fighter.attack_tie_witness :
    ∃ w1, Fighter.attack shielded 0 1 = .ok (false, w1) ∧
      (w1 1).health_ = 100 ∧ (w1 0).stamina_ = 90 ∧
      shielded.SameExcept w1 0 1 :=
  Fighter.attack_tie shielded 0 1 (by decide) (by decide) (by decide) (by decide) 10
    (by decide) (by decide)

/-- C8. Insufficient stamina: for a living actor with stamina below 10 and a living
target, `attack` and `heal` return false and leave the whole store unchanged, so no
stamina is charged and the target's health stays as it was (also when it is 100). -/
theorem low_stamina_spec (w : World) (self other : Nat)
    (hself : (w self).health_ ≠ 0) (hother : (w other).health_ ≠ 0)
    (hlow : (w self).stamina_ < 10) :
    Fighter.attack w self other = .ok (false, w) ∧
    Healer.heal w self other = .ok (false, w) := by
  constructor
  · simp [Fighter.attack, Player.getHealth, hself, hother, hlow]
  · simp [Healer.heal, Player.getHealth, hself, hother, hlow]

/-- C8 with the actor at 5 stamina and Bob at full health. -/
theorem low_stamina_spec_witness :
    Fighter.attack tired 0 1 = .ok (false, tired) ∧
    Healer.heal tired 0 1 = .ok (false, tired) :=
  low_stamina_spec tired 0 1 (by decide) (by decide) (by decide)

/-- C9. Healing: for a living healer with stamina `s ≥ 10` and a target with health `h`,
`0 < h < 100`, `heal` returns true, sets the target's health to `min(100, h + 20)`
and the healer's stamina to `s - 10`, and changes no other field of any player. -/
theorem Healer.heal_spec (w : World) (self other : Nat)
    (hself : (w self).health_ ≠ 0)
    (hpos : 0 < (w other).health_) (hlt : (w other).health_ < 100)
    (hst : 10 ≤ (w self).stamina_) (hint : IsInt (w self).stamina_) :
    ∃ w1, Healer.heal w self other = .ok (true, w1) ∧
      (w1 other).health_ = min 100 ((w other).health_ + 20) ∧
      (w1 self).stamina_ = (w self).stamina_ - 10 ∧
      w.SameExcept w1 self other := by
  have hother : (w other).health_ ≠ 0 := by omega
  have h100 : (w other).health_ ≠ 100 := by omega
  have hlow : ¬ (w self).stamina_ < 10 := by omega
  have hsub := isub_ten hst hint
  have hadd : iadd (w other).health_ 20 = (w other).health_ + 20 := by
    unfold iadd; apply wrap32_of_isInt; unfold IsInt; omega
  have hret : ∃ w1, Healer.heal w self other = .ok (true, w1) ∧
      (w1 other).health_ = min 100 ((w other).health_ + 20) ∧
      (w1 self).stamina_ = (w self).stamina_ - 10 := by
    simp only [Healer.heal, Player.getHealth, hself, hother, h100, hlow, if_false, hsub]
    refine ⟨_, rfl, ?_, ?_⟩
    · by_cases hk : other = self
      · subst hk
        split_ifs with h1 <;> simp only [World.set_apply, if_true, hadd] at h1 ⊢ <;> omega
      · split_ifs with h1 <;>
          simp only [World.set_apply, if_true, hadd, hk, if_false] at h1 ⊢ <;> omega
    · by_cases hk : other = self
      · subst hk
        split_ifs with h1 <;> simp only [World.set_apply, if_true]
      · have hk2 : ¬ self = other := fun h => hk h.symm
        split_ifs with h1 <;> simp only [World.set_apply, if_true, hk2, if_false]
  obtain ⟨w1, h1, h2, h3⟩ := hret
  exact ⟨w1, h1, h2, h3, Healer.heal_frame w w1 self other true h1⟩

/-- C9 in scenario B: Cara heals Bob, who is at 75 after one blow; Bob ends at 95 and
Cara at 90 stamina. -/
theorem Healer.heal_spec_witness :
    ∃ w1, Healer.heal afterBlow 2 1 = .ok (true, w1) ∧
      (w1 1).health_ = 95 ∧ (w1 2).stamina_ = 90 ∧
      afterBlow.SameExcept w1 2 1 :=
  Healer.heal_spec afterBlow 2 1 (by decide) (by decide) (by decide) (by decide) (by decide)

/-- C10. Healing a full-health target: for a living healer with stamina `s ≥ 10` and a
target whose health is exactly 100, `heal` returns false, the healer's stamina becomes
`s - 10`, the target's health stays 100, and nothing else changes. -/
theorem Healer.heal_full (w : World) (self other : Nat)
    (hself : (w self).health_ ≠ 0) (hfull : (w other).health_ = 100)
    (hst : 10 ≤ (w self).stamina_) (hint : IsInt (w self).stamina_) :
    ∃ w1, Healer.heal w self other = .ok (false, w1) ∧
      (w1 self).stamina_ = (w self).stamina_ - 10 ∧
      (w1 other).health_ = 100 ∧
      w.SameExcept w1 self other := by
  have hother : (w other).health_ ≠ 0 := by omega
  have hlow : ¬ (w self).stamina_ < 10 := by omega
  have hsub := isub_ten hst hint
  simp only [Healer.heal, Player.getHealth, hself, hother, hfull, hlow, if_false, hsub, if_true]
  refine ⟨_, rfl, ?_, ?_, World.sameExcept_set_stamina w self other _⟩
  · simp [World.set_apply]
  · by_cases hk : other = self
    · subst hk; simpa [World.set_apply] using hfull
    · simpa [World.set_apply, hk] using hfull

/-- C10 on fresh players: Cara heals Bob, who is at 100. -/
theorem Healer.heal_full_witness :
    ∃ w1, Healer.heal arena 2 1 = .ok (false, w1) ∧
      (w1 2).stamina_ = 90 ∧ (w1 1).health_ = 100 ∧
      arena.SameExcept w1 2 1 :=
  Healer.heal_full arena 2 1 (by decide) (by decide) (by decide) (by decide)


/-! ## Text reports: what the loops build -/

theorem pop_back_append_two (s : String) (a b : Char) :
    pop_back (pop_back (s ++ ⟨[a, b]⟩)) = s := by
  apply String.ext
  simp [pop_back, List.dropLast_append_cons]

/-- Started on a text that ends with the separator, the inventory loop appends the item
lines and leaves one separator at the end. -/
theorem Player.getInventoryLoop_eq (items : List Object) (acc : String) :
    Player.getInventoryLoop items (acc ++ "\n ") = acc ++ Spec.itemLines items ++ "\n " := by
  induction items generalizing acc with
  | nil => simp [Player.getInventoryLoop, Spec.itemLines]
  | cons o rest ih =>
    have h : acc ++ "\n " ++ (o.print ++ "\n ") = (acc ++ "\n " ++ o.print) ++ "\n " := by
      simp [String.append_assoc]
    simp only [Player.getInventoryLoop, Spec.itemLines, h, ih]
    simp [String.append_assoc]

/-- The inventory report of a player that carries something. -/
theorem Player.getInventory_of_ne_nil (p : Player) (h : p.items_ ≠ []) :
    p.getInventory = "List of items:" ++ Spec.itemLines p.items_ := by
  have hlen : p.items_.length ≠ 0 := by
    intro h0; exact h (List.length_eq_zero.1 h0)
  simp only [Player.getInventory, hlen, ne_eq, not_false_eq_true, if_true,
    Player.getInventoryLoop_eq]
  exact pop_back_append_two _ '\n' ' '

/-- The inventory report of a player that carries nothing. -/
theorem Player.getInventory_of_nil (p : Player) (h : p.items_ = []) :
    p.getInventory = "List of items: none" := by
  simp [Player.getInventory, h]

/-- On a non-empty list the armour loop appends the comma-joined names and leaves one
separator at the end. -/
theorem Player.armourLoop_eq (names : List String) (h : names ≠ []) (player : String) :
    Player.armourLoop names player = player ++ Spec.commaJoined names ++ ", " := by
  induction names generalizing player with
  | nil => exact absurd rfl h
  | cons a rest ih =>
    cases rest with
    | nil => simp [Player.armourLoop, Spec.commaJoined, String.append_assoc]
    | cons b rest =>
      simp only [Player.armourLoop] at ih ⊢
      rw [ih (by simp)]
      simp [Spec.commaJoined, String.append_assoc]

/-- The text both `print` overrides put after "Armour in use: ". -/
theorem Player.armour_tail (armour : List String) (player : String) :
    (if armour.length = 0 then player ++ "none"
      else pop_back (pop_back (Player.armourLoop armour player))) =
      player ++ Spec.armourText armour := by
  by_cases h : armour = []
  · simp [h, Spec.armourText]
  · have hlen : armour.length ≠ 0 := fun h0 => h (List.length_eq_zero.1 h0)
    simp only [hlen, if_false, Spec.armourText, h, Player.armourLoop_eq armour h]
    exact pop_back_append_two _ ',' ' '

/-- The comma-joined names are the library's `intercalate`. -/
theorem Spec.commaJoined_eq_intercalate (names : List String) :
    Spec.commaJoined names = ", ".intercalate names := by
  have go : ∀ (l : List String) (acc a : String),
      String.intercalate.go (acc ++ a) ", " l = acc ++ String.intercalate.go a ", " l := by
    intro l
    induction l with
    | nil => intro acc a; simp [String.intercalate.go]
    | cons b rest ih =>
      intro acc a
      simp only [String.intercalate.go]
      rw [String.append_assoc acc a ", ", String.append_assoc acc (a ++ ", ") b, ih]
  induction names with
  | nil => rfl
  | cons a rest ih =>
    cases rest with
    | nil => simp [Spec.commaJoined, String.intercalate, String.intercalate.go]
    | cons b rest =>
      simp only [Spec.commaJoined, String.intercalate, String.intercalate.go] at ih ⊢
      rw [ih, go]


/-- Decimal digits: the characters `toDigitsCore` produces in base 10 are the base-10
digits of the number, most significant first. -/
theorem toDigitsCore_eq_digits (fuel n : Nat) (ds : List Char) (hn : 0 < n) (hf : n < fuel) :
    Nat.toDigitsCore 10 fuel n ds = ((Nat.digits 10 n).reverse.map Nat.digitChar) ++ ds := by
  induction fuel generalizing n ds with
  | zero => omega
  | succ fuel ih =>
    rw [Nat.digits_def' (by decide) hn]
    simp only [Nat.toDigitsCore]
    by_cases h0 : n / 10 = 0
    · simp [h0]
    · simp only [h0, if_false]
      rw [ih (n / 10) _ (Nat.pos_of_ne_zero h0) (by omega)]
      simp

theorem toString_nat_decimal (n : Nat) (hn : 0 < n) :
    toString n = String.mk ((Nat.digits 10 n).reverse.map Nat.digitChar) := by
  show Nat.repr n = _
  unfold Nat.repr Nat.toDigits
  rw [toDigitsCore_eq_digits (n + 1) n [] hn (by omega)]
  simp [List.asString]

/-- The text `to_string` returns is the decimal rendering. -/
theorem to_string_eq_decimal (v : Int) : to_string v = Spec.decimal v := by
  unfold to_string Spec.decimal
  cases v with
  | ofNat m =>
    have hnn : ¬ Int.ofNat m < 0 := by simp
    by_cases hm : m = 0
    · subst hm; decide
    · have h0 : ¬ Int.ofNat m = 0 := by simpa using hm
      simp only [hnn, h0, if_false]
      show toString m = _
      rw [toString_nat_decimal m (Nat.pos_of_ne_zero hm)]
      simp
  | negSucc m =>
    have hneg : Int.negSucc m < 0 := Int.negSucc_lt_zero m
    have h0 : ¬ Int.negSucc m = 0 := by simp
    simp only [hneg, h0, if_true, if_false]
    show "-" ++ toString (m + 1) = _
    rw [toString_nat_decimal (m + 1) (Nat.succ_pos m)]
    rfl


/-! ## Equipping and picking up: closed forms -/

/-- The exact result of `use(n)` when the first inventory item named `n` is a Weapon. -/
theorem Player.use_weapon (p : Player) (n : String) (i : Nat) (o : Object)
    (hlive : p.health_ ≠ 0) (hi : p.items_[i]? = some o) (hn : o.getName = n)
    (hfirst : ∀ (j : Nat) (o2 : Object), j < i → p.items_[j]? = some o2 → o2.getName ≠ n)
    (hc : o.cls = .Weapon) :
    p.use n = .ok (true, { p with weapon_ := n }) := by
  have hidx : find_if (fun object => object.getName == n) p.items_ = i :=
    find_if_eq_of_first _ _ i o hi (by simpa using hn)
      (fun j o2 hlt h2 => by simpa using hfirst j o2 hlt h2)
  have hlt : i < p.items_.length := (List.getElem?_eq_some_iff.1 hi).1
  have hne : i ≠ p.items_.length := by omega
  have hn2 : o.name_ = n := hn
  simp [Player.use, hlive, hidx, hne, hi, Object.use, hc, Weapon.use, hn2]

/-- The exact result of `use(n)` when the first inventory item named `n` is an Armour. -/
theorem Player.use_armour (p : Player) (n : String) (i : Nat) (o : Object)
    (hlive : p.health_ ≠ 0) (hi : p.items_[i]? = some o) (hn : o.getName = n)
    (hfirst : ∀ (j : Nat) (o2 : Object), j < i → p.items_[j]? = some o2 → o2.getName ≠ n)
    (hc : o.cls = .Armour) :
    p.use n = .ok (true, { p with armour_ := p.armour_ ++ [n] }) := by
  have hidx : find_if (fun object => object.getName == n) p.items_ = i :=
    find_if_eq_of_first _ _ i o hi (by simpa using hn)
      (fun j o2 hlt h2 => by simpa using hfirst j o2 hlt h2)
  have hlt : i < p.items_.length := (List.getElem?_eq_some_iff.1 hi).1
  have hne : i ≠ p.items_.length := by omega
  have hn2 : o.name_ = n := hn
  simp [Player.use, hlive, hidx, hne, hi, Object.use, hc, Armour.use, hn2]

/-- Using the same armour `k` times appends its name `k` times. -/
theorem Player.useTimes_armour (k : Nat) (p : Player) (n : String) (i : Nat) (o : Object)
    (hlive : p.health_ ≠ 0) (hi : p.items_[i]? = some o) (hn : o.getName = n)
    (hfirst : ∀ (j : Nat) (o2 : Object), j < i → p.items_[j]? = some o2 → o2.getName ≠ n)
    (hc : o.cls = .Armour) :
    Player.useTimes n k p = some { p with armour_ := p.armour_ ++ List.replicate k n } := by
  induction k generalizing p with
  | zero => simp [Player.useTimes]
  | succ k ih =>
    simp only [Player.useTimes, Player.use_armour p n i o hlive hi hn hfirst hc]
    rw [ih { p with armour_ := p.armour_ ++ [n] } hlive hi hfirst]
    simp [List.replicate_succ]

/-- The exact result of `pickup` on a living player. -/
theorem Player.pickup_alive (p : Player) (o : Object) (hlive : p.health_ ≠ 0) :
    p.pickup o = .ok { p with items_ := p.items_ ++ [o] } := by
  simp [Player.pickup, hlive]


/-! ## Calls always return a store; the dead stay as they are -/

theorem Player.eq_of_fields {p q : Player} (h1 : q.cls = p.cls) (h2 : q.name_ = p.name_)
    (h3 : q.health_ = p.health_) (h4 : q.stamina_ = p.stamina_)
    (h5 : q.weapon_ = p.weapon_) (h6 : q.armour_ = p.armour_) (h7 : q.items_ = p.items_) :
    q = p := by
  cases p; cases q; simp_all

/-- A player that is neither the actor nor the target is untouched by `attack`/`heal`. -/
theorem World.SameExcept.bystander {w w1 : World} {self other : Nat}
    (h : w.SameExcept w1 self other) (k : Nat) (hs : k ≠ self) (ho : k ≠ other) :
    w1 k = w k := by
  obtain ⟨h1, h2, h5, h6, h7, h3, h4⟩ := h k
  exact Player.eq_of_fields h1 h2 (h3 ho) (h4 hs) h5 h6 h7

/-- When `attack` returns, actor and target were alive. -/
theorem Fighter.attack_ok_alive (w : World) (self other : Nat) (r : Bool × World)
    (h : Fighter.attack w self other = .ok r) :
    (w self).health_ ≠ 0 ∧ (w other).health_ ≠ 0 := by
  unfold Fighter.attack at h
  split_ifs at h with h1 h2
  all_goals exact ⟨h1, h2⟩

/-- When `heal` returns, actor and target were alive. -/
theorem Healer.heal_ok_alive (w : World) (self other : Nat) (r : Bool × World)
    (h : Healer.heal w self other = .ok r) :
    (w self).health_ ≠ 0 ∧ (w other).health_ ≠ 0 := by
  unfold Healer.heal at h
  split_ifs at h with h1 h2
  all_goals exact ⟨h1, h2⟩

/-- With a dead actor or a dead target, `attack` throws and `heal` throws. -/
theorem dead_party_throws (w : World) (d self other : Nat) (hd : (w d).health_ = 0)
    (hp : self = d ∨ other = d) :
    (∃ what, Fighter.attack w self other = .error (.logic_error what)) ∧
    (∃ what, Healer.heal w self other = .error (.logic_error what)) := by
  by_cases hs : (w self).health_ = 0
  · exact ⟨⟨"Player is dead.", by simp [Fighter.attack, hs]⟩,
      ⟨"Player is dead.", by simp [Healer.heal, hs]⟩⟩
  · have ho : (w other).health_ = 0 := by
      rcases hp with hp | hp
      · subst hp; exact absurd hd hs
      · subst hp; exact hd
    exact ⟨⟨"Stop! " ++ (w other).getName ++ " is already dead.",
        by simp [Fighter.attack, Player.getHealth, hs, ho]⟩,
      ⟨(w other).getName ++ " is dead.", by simp [Healer.heal, Player.getHealth, hs, ho]⟩⟩

/-- One call leaves a dead player exactly as it was. -/
theorem World.step_dead (w w1 : World) (op : Op) (d : Nat) (hd : (w d).health_ = 0)
    (hs : w.step op = some w1) : w1 d = w d := by
  unfold World.step at hs
  split at hs
  · rename_i r w2 hcall
    cases hs
    cases op with
    | pickup p o =>
      simp only [World.call] at hcall
      split at hcall
      · rename_i p1 hp1
        cases hcall
        by_cases hpd : d = p
        · subst hpd; simp [Player.pickup, hd] at hp1
        · simp [World.set_apply, hpd]
      · cases hcall
    | use p name =>
      simp only [World.call] at hcall
      split at hcall
      · rename_i b p1 hp1
        cases hcall
        by_cases hpd : d = p
        · subst hpd; simp [Player.use, hd] at hp1
        · simp [World.set_apply, hpd]
      · cases hcall
    | attack self other =>
      simp only [World.call] at hcall
      split at hcall
      · rename_i b w3 hw3
        cases hcall
        obtain ⟨ha, hb⟩ := Fighter.attack_ok_alive w self other _ hw3
        exact (Fighter.attack_frame w _ self other b hw3).bystander d
          (fun h => ha (h ▸ hd)) (fun h => hb (h ▸ hd))
      · cases hcall
    | heal self other =>
      simp only [World.call] at hcall
      split at hcall
      · rename_i b w3 hw3
        cases hcall
        obtain ⟨ha, hb⟩ := Healer.heal_ok_alive w self other _ hw3
        exact (Healer.heal_frame w _ self other b hw3).bystander d
          (fun h => ha (h ▸ hd)) (fun h => hb (h ▸ hd))
      · cases hcall
  · cases hs
  · cases hs; rfl

/-- Any sequence of calls leaves a dead player exactly as it was. -/
theorem World.run_dead (ops : List Op) (w w1 : World) (d : Nat) (hd : (w d).health_ = 0)
    (hr : w.run ops = some w1) : w1 d = w d := by
  induction ops generalizing w with
  | nil => simp [World.run] at hr; rw [hr]
  | cons op ops ih =>
    simp only [World.run] at hr
    split at hr
    · rename_i w2 hstep
      have h2 := World.step_dead w w2 op d hd hstep
      rw [ih w2 (by rw [h2]; exact hd) hr, h2]
    · cases hr

/-- Where every equipped name resolves, every call leaves a store behind. -/
theorem World.step_defined (w : World) (h : ∀ i, (w i).Equipped) (op : Op) :
    ∃ w1, w.step op = some w1 := by
  cases op with
  | pickup p o =>
    by_cases hp : (w p).health_ = 0
    · exact ⟨w, by simp [World.step, World.call, Player.pickup, hp]⟩
    · exact ⟨w.set p { w p with items_ := (w p).items_ ++ [o] },
        by simp [World.step, World.call, Player.pickup, hp]⟩
  | use p name =>
    by_cases hp : (w p).health_ = 0
    · exact ⟨w, by simp [World.step, World.call, Player.use, hp]⟩
    · obtain ⟨r, hr⟩ := Player.use_returns (w p) name hp
      exact ⟨w.set p r.2, by simp [World.step, World.call, hr]⟩
  | attack self other =>
    by_cases hp : (w self).health_ = 0 ∨ (w other).health_ = 0
    · have hd : ∃ d, (w d).health_ = 0 ∧ (self = d ∨ other = d) := by
        rcases hp with hp | hp
        · exact ⟨self, hp, Or.inl rfl⟩
        · exact ⟨other, hp, Or.inr rfl⟩
      obtain ⟨d, hd, hsd⟩ := hd
      obtain ⟨⟨what, hw⟩, _⟩ := dead_party_throws w d self other hd hsd
      exact ⟨w, by simp [World.step, World.call, hw]⟩
    · push_neg at hp
      obtain ⟨r, hr⟩ := Fighter.attack_returns w self other hp.1 hp.2 (h self) (h other)
      exact ⟨r.2, by simp [World.step, World.call, hr]⟩
  | heal self other =>
    by_cases hp : (w self).health_ = 0 ∨ (w other).health_ = 0
    · have hd : ∃ d, (w d).health_ = 0 ∧ (self = d ∨ other = d) := by
        rcases hp with hp | hp
        · exact ⟨self, hp, Or.inl rfl⟩
        · exact ⟨other, hp, Or.inr rfl⟩
      obtain ⟨d, hd, hsd⟩ := hd
      obtain ⟨_, ⟨what, hw⟩⟩ := dead_party_throws w d self other hd hsd
      exact ⟨w, by simp [World.step, World.call, hw]⟩
    · push_neg at hp
      obtain ⟨r, hr⟩ := Healer.heal_returns w self other hp.1 hp.2
      exact ⟨r.2, by simp [World.step, World.call, hr]⟩

/-- Where every equipped name resolves, every sequence of calls leaves a store behind. -/
theorem World.run_defined (ops : List Op) (w : World) (h : ∀ i, (w i).Equipped) :
    ∃ w1, w.run ops = some w1 := by
  induction ops generalizing w with
  | nil => exact ⟨w, rfl⟩
  | cons op ops ih =>
    obtain ⟨w2, h2⟩ := World.step_defined w h op
    obtain ⟨w3, h3⟩ := ih w2 (World.step_equipped w w2 op h h2)
    exact ⟨w3, by simp [World.run, h2, h3]⟩

/-- The stamina `Food::use` stores, for a stamina in `[0,100]` and a constructible
value: the cap of the sum while the sum fits a 32-bit `int`, the wrapped sum (a negative
number) once it does not. -/
theorem Food.use_stamina (s v : Int) (hs0 : 0 ≤ s) (hs1 : s ≤ 100) (hv0 : 0 ≤ v)
    (hv1 : v ≤ 2147483647) :
    (if iadd s v > 100 then 100 else iadd s v) =
      if s + v ≤ 2147483647 then min (s + v) 100 else s + v - 4294967296 := by
  unfold iadd wrap32
  split_ifs <;> omega


/-! ## The claims, continued -/

/-- C11. Equipping a weapon: for a living player whose first inventory item named `n`
is a Weapon, `use(n)` returns true and sets the equipped weapon to `n`; the inventory
(same items, same order, same length), health, stamina and the equipped armour list
are unchanged. -/
theorem Player.use_weapon_spec (p : Player) (n : String) (i : Nat) (o : Object)
    (hlive : p.health_ ≠ 0) (hi : p.items_[i]? = some o) (hn : o.getName = n)
    (hfirst : ∀ (j : Nat) (o2 : Object), j < i → p.items_[j]? = some o2 → o2.getName ≠ n)
    (hc : o.cls = .Weapon) :
    ∃ p1, p.use n = .ok (true, p1) ∧ p1.weapon_ = n ∧
      p1.items_ = p.items_ ∧ p1.items_.length = p.items_.length ∧
      p1.health_ = p.health_ ∧ p1.stamina_ = p.stamina_ ∧ p1.armour_ = p.armour_ ∧
      p1 = { p with weapon_ := n } :=
  ⟨{ p with weapon_ := n }, Player.use_weapon p n i o hlive hi hn hfirst hc,
    rfl, rfl, rfl, rfl, rfl, rfl, rfl⟩

/-- C11 on a fighter carrying a bread and then a sword: `use("Sword")` equips it. -/
theorem Player.use_weapon_spec_witness :
    ∃ p1, packed.use "Sword" = .ok (true, p1) ∧ p1.weapon_ = "Sword" ∧
      p1.items_ = packed.items_ ∧ p1.items_.length = packed.items_.length ∧
      p1.health_ = packed.health_ ∧ p1.stamina_ = packed.stamina_ ∧
      p1.armour_ = packed.armour_ ∧ p1 = { packed with weapon_ := "Sword" } :=
  Player.use_weapon_spec packed "Sword" 1 ⟨.Weapon, "Sword", 15⟩ (by decide) rfl rfl
    (fun j o2 hj h => by
      have hj0 : j = 0 := by omega
      subst hj0
      have ho : o2 = ⟨.Food, "Bread", 30⟩ := by
        simpa [packed] using h.symm
      subst ho
      decide) rfl

/-- C12. Equipping armour: for a living player whose first inventory item named `n` is
an Armour, `use(n)` returns true and the equipped armour list becomes the prior list
with `n` appended at the end, whether or not `n` already occurs in it; `k` successive
uses append `k` entries; inventory, health, stamina and equipped weapon are unchanged. -/
theorem Player.use_armour_spec (p : Player) (n : String) (i : Nat) (o : Object)
    (hlive : p.health_ ≠ 0) (hi : p.items_[i]? = some o) (hn : o.getName = n)
    (hfirst : ∀ (j : Nat) (o2 : Object), j < i → p.items_[j]? = some o2 → o2.getName ≠ n)
    (hc : o.cls = .Armour) :
    (∃ p1, p.use n = .ok (true, p1) ∧ p1.armour_ = p.armour_ ++ [n] ∧
      p1.items_ = p.items_ ∧ p1.health_ = p.health_ ∧ p1.stamina_ = p.stamina_ ∧
      p1.weapon_ = p.weapon_ ∧ p1 = { p with armour_ := p.armour_ ++ [n] }) ∧
    ∀ k, Player.useTimes n k p =
      some { p with armour_ := p.armour_ ++ List.replicate k n } :=
  ⟨⟨{ p with armour_ := p.armour_ ++ [n] }, Player.use_armour p n i o hlive hi hn hfirst hc,
      rfl, rfl, rfl, rfl, rfl, rfl⟩,
    fun k => Player.useTimes_armour k p n i o hlive hi hn hfirst hc⟩

/-- C12 in scenario D: Bob, who already wears the shield, equips it again and wears it
twice. -/
theorem Player.use_armour_spec_witness :
    ∃ p1, guarded.use "Shield" = .ok (true, p1) ∧ p1.armour_ = ["Shield", "Shield"] ∧
      p1.items_ = guarded.items_ ∧ p1.health_ = guarded.health_ ∧
      p1.stamina_ = guarded.stamina_ ∧ p1.weapon_ = guarded.weapon_ ∧
      p1 = { guarded with armour_ := guarded.armour_ ++ ["Shield"] } :=
  (Player.use_armour_spec guarded "Shield" 0 ⟨.Armour, "Shield", 5⟩ (by decide) rfl rfl
    (fun j _ hj => absurd hj (Nat.not_lt_zero j)) rfl).1

/-- C13. Pickup: for a living player and any item, `pickup(item)` makes the inventory
the prior inventory with the item appended at the end (length grows by exactly 1) and
leaves health, stamina, equipped weapon and equipped armour unchanged. -/
theorem Player.pickup_spec (p : Player) (o : Object) (hlive : p.health_ ≠ 0) :
    ∃ p1, p.pickup o = .ok p1 ∧ p1.items_ = p.items_ ++ [o] ∧
      p1.items_.length = p.items_.length + 1 ∧
      p1.health_ = p.health_ ∧ p1.stamina_ = p.stamina_ ∧ p1.weapon_ = p.weapon_ ∧
      p1.armour_ = p.armour_ ∧ p1 = { p with items_ := p.items_ ++ [o] } :=
  ⟨{ p with items_ := p.items_ ++ [o] }, Player.pickup_alive p o hlive, rfl,
    by simp, rfl, rfl, rfl, rfl, rfl⟩

/-- C13 on a fighter carrying a bread and a sword who picks up a shield. -/
theorem Player.pickup_spec_witness :
    ∃ p1, packed.pickup ⟨.Armour, "Shield", 5⟩ = .ok p1 ∧
      p1.items_ =
        [⟨.Food, "Bread", 30⟩, ⟨.Weapon, "Sword", 15⟩, ⟨.Armour, "Shield", 5⟩] ∧
      p1.items_.length = 3 ∧
      p1.health_ = 100 ∧ p1.stamina_ = 100 ∧ p1.weapon_ = "none" ∧
      p1.armour_ = [] ∧
      p1 = { packed with items_ := packed.items_ ++ [⟨.Armour, "Shield", 5⟩] } :=
  Player.pickup_spec packed ⟨.Armour, "Shield", 5⟩ (by decide)

/-- C14. Inventory report format: `getInventory` is `"List of items: none"` for an empty
inventory, and otherwise `"List of items:"` followed, for each item in insertion order,
by a newline, one space and the item's `print` text, with nothing after the last one. -/
theorem Player.getInventory_spec (p : Player) :
    p.getInventory =
      if p.items_ = [] then "List of items: none"
      else "List of items:" ++ Spec.itemLines p.items_ := by
  by_cases h : p.items_ = []
  · simp only [h, if_true]; exact Player.getInventory_of_nil p h
  · simp only [h, if_false]; exact Player.getInventory_of_ne_nil p h

/-- C14 in scenario C: the report of a player carrying one bread, and of the same player
once the bread is eaten. -/
theorem Player.getInventory_spec_witness :
    peckish.getInventory = "List of items:\n Food, name: Bread, value: 30" ∧
    ({ peckish with items_ := [] } : Player).getInventory = "List of items: none" :=
  ⟨(Player.getInventory_spec peckish).trans (by decide),
    (Player.getInventory_spec { peckish with items_ := [] }).trans (by decide)⟩

/-- C15. Item description format: for an item of class `c` with name `n` and value `v`,
`print` is the class name ("Food", "Weapon" or "Armour"), then `", name: "`, `n`,
`", value: "` and the decimal rendering of `v`. -/
theorem Object.print_format (c : ObjectClass) (n : String) (v : Int) :
    (⟨c, n, v⟩ : Object).print =
      (match c with
        | .Food => "Food"
        | .Weapon => "Weapon"
        | .Armour => "Armour") ++ ", name: " ++ n ++ ", value: " ++ to_string v ∧
    to_string v = Spec.decimal v ∧
    ∀ o, Object.new c n v = .ok o → o = ⟨c, n, v⟩ := by
  refine ⟨?_, to_string_eq_decimal v, ?_⟩
  · cases c <;> rfl
  · intro o ho
    unfold Object.new at ho
    split_ifs at ho
    cases ho
    rfl

/-- C15 on the bread of scenario C. -/
theorem Object.print_format_witness :
    (⟨.Food, "Bread", 30⟩ : Object).print = "Food, name: Bread, value: 30" :=
  (Object.print_format .Food "Bread" 30).1.trans (by decide)

/-- C16. Fighter report format: for a Fighter, `print` is the lines Name, Type
(`Fighter`), Health and Stamina, then the inventory report, then `"\nWeapon in use: "`
and the equipped weapon name (`"none"` for a fresh player), then `"\nArmour in use: "`
and either `"none"` or the equipped names in order joined by `", "`. -/
theorem Fighter.print_report (p : Player) (hc : p.cls = .Fighter) :
    p.print =
      "Name: " ++ p.name_ ++ "\nType: " ++ "Fighter" ++ "\nHealth: " ++ to_string p.health_ ++
        "\nStamina: " ++ to_string p.stamina_ ++ "\n" ++ p.getInventory ++
        "\nWeapon in use: " ++ p.weapon_ ++
        "\nArmour in use: " ++ (if p.armour_ = [] then "none" else ", ".intercalate p.armour_) ∧
    ∀ name, (Fighter.new name).weapon_ = "none" := by
  refine ⟨?_, fun _ => rfl⟩
  have h := Player.armour_tail p.armour_
  simp only [Player.print, hc, Fighter.print, Player.type_, PlayerClass.type_, h,
    Spec.armourText, Spec.commaJoined_eq_intercalate]
  simp only [String.append_assoc]

/-- C16 on Bob wearing the shield twice (scenario D). -/
theorem Fighter.print_report_witness :
    ({ guarded with armour_ := ["Shield", "Shield"] } : Player).print =
      "Name: Bob\nType: Fighter\nHealth: 100\nStamina: 100\n" ++
        "List of items:\n Armour, name: Shield, value: 5\n" ++
        "Weapon in use: none\nArmour in use: Shield, Shield" :=
  (Fighter.print_report { guarded with armour_ := ["Shield", "Shield"] } rfl).1.trans (by decide)

/-- C17. Healer report format: for a Healer, `print` is the text of a Fighter report for
the same name, health, stamina, inventory and equipped armour with `Healer` on the type
line and without the weapon line: the inventory report is directly followed by
`"\nArmour in use: "`.  The equipped weapon does not occur in it at all. -/
theorem Healer.print_without_weapon (p : Player) (hc : p.cls = .Healer) :
    p.print =
      Spec.reportHead "Healer" p ++
        "\nArmour in use: " ++ (if p.armour_ = [] then "none" else ", ".intercalate p.armour_) ∧
    ({ p with cls := .Fighter } : Player).print =
      Spec.reportHead "Fighter" p ++ "\nWeapon in use: " ++ p.weapon_ ++
        "\nArmour in use: " ++ (if p.armour_ = [] then "none" else ", ".intercalate p.armour_) ∧
    ∀ weapon, ({ p with weapon_ := weapon } : Player).print = p.print := by
  have h := Player.armour_tail p.armour_
  have hp : p.print = Spec.reportHead "Healer" p ++ "\nArmour in use: " ++
      (if p.armour_ = [] then "none" else ", ".intercalate p.armour_) := by
    simp only [Player.print, hc, Healer.print, Player.type_, PlayerClass.type_, h,
      Spec.armourText, Spec.commaJoined_eq_intercalate, Spec.reportHead]
  refine ⟨hp, ?_, ?_⟩
  · simp only [Player.print, Fighter.print, Player.type_, PlayerClass.type_,
      Spec.reportHead, Player.getInventory]
    rw [Player.armour_tail]
    simp only [Spec.armourText, Spec.commaJoined_eq_intercalate, String.append_assoc]
  · intro weapon
    simp only [Player.print, hc, Healer.print, Player.type_, Player.getInventory]

/-- C17 on Cara, who has picked up and equipped a sword: no weapon line. -/
theorem Healer.print_without_weapon_witness :
    swordHealer.print =
      "Name: Cara\nType: Healer\nHealth: 100\nStamina: 100\n" ++
        "List of items:\n Weapon, name: Sword, value: 15\n" ++
        "Armour in use: none" :=
  (Healer.print_without_weapon swordHealer rfl).1.trans (by decide)

/-- C18. Equipment lookups never miss: in every store reachable from freshly constructed
players, each player's equipped weapon is `"none"` or the name of an inventory item
whose first name-match is a Weapon, every equipped armour name is the name of an
inventory item whose first name-match is an Armour, the two lookups of `attack` find
their items for every attacker and target, `attack` never runs into undefined
behaviour, and every further call leaves a store behind. -/
theorem equipment_lookups_resolve (w : World) (hw : Reachable w) :
    (∀ i, (w i).weapon_ = "none" ∨
      ∃ o, o ∈ (w i).items_ ∧ o.getName = (w i).weapon_ ∧
        (w i).firstNamed (w i).weapon_ = some o ∧ o.cls = .Weapon) ∧
    (∀ i, ∀ n ∈ (w i).armour_,
      ∃ o, o ∈ (w i).items_ ∧ o.getName = n ∧
        (w i).firstNamed n = some o ∧ o.cls = .Armour) ∧
    (∀ self other, (∃ a, Fighter.attackValue (w self) = .ok a) ∧
      (∃ d, Fighter.defenceValue (w other) = .ok d) ∧
      Fighter.attack w self other ≠ .error .undefined) ∧
    (∀ op, ∃ w1, w.step op = some w1) := by
  have he := Reachable.equipped hw
  refine ⟨?_, ?_, ?_, World.step_defined w he⟩
  · intro i
    by_cases hn : (w i).weapon_ = "none"
    · exact Or.inl hn
    · obtain ⟨o, ho, hcls⟩ := (he i).1 hn
      exact Or.inr ⟨o, List.mem_of_find?_eq_some ho,
        Player.firstNamed_name _ _ _ ho, ho, hcls⟩
  · intro i n hn
    obtain ⟨o, ho, hcls⟩ := (he i).2 n hn
    exact ⟨o, List.mem_of_find?_eq_some ho, Player.firstNamed_name _ _ _ ho, ho, hcls⟩
  · intro self other
    refine ⟨Fighter.attackValue_ok _ (he self), Fighter.defenceValue_ok _ (he other), ?_⟩
    by_cases hp : (w self).health_ = 0 ∨ (w other).health_ = 0
    · have hd : ∃ d, (w d).health_ = 0 ∧ (self = d ∨ other = d) := by
        rcases hp with hp | hp
        · exact ⟨self, hp, Or.inl rfl⟩
        · exact ⟨other, hp, Or.inr rfl⟩
      obtain ⟨d, hd, hsd⟩ := hd
      obtain ⟨⟨what, hwhat⟩, _⟩ := dead_party_throws w d self other hd hsd
      rw [hwhat]; simp
    · push_neg at hp
      obtain ⟨r, hr⟩ := Fighter.attack_returns w self other hp.1 hp.2 (he self) (he other)
      rw [hr]; simp

/-- C18 after the duel: Alice's equipped `"Sword"` is the sword in her inventory. -/
theorem equipment_lookups_resolve_witness :
    (afterDuel 0).weapon_ = "none" ∨
      ∃ o, o ∈ (afterDuel 0).items_ ∧ o.getName = (afterDuel 0).weapon_ ∧
        (afterDuel 0).firstNamed (afterDuel 0).weapon_ = some o ∧ o.cls = .Weapon :=
  (equipment_lookups_resolve afterDuel afterDuel_reachable).1 0

/-- C19. Death is absorbing: in a reachable store where a player's health is 0, every
`pickup` and `use` by that player and every `attack` and `heal` with that player as
actor or target throws and leaves the whole store as it was (so the actor's stamina is
not charged), and after any call and any sequence of calls whatsoever every field of
that player is what it was. -/
theorem death_is_absorbing (w : World) (hw : Reachable w) (d : Nat)
    (hd : (w d).health_ = 0) :
    (∀ op, ∃ w1, w.step op = some w1 ∧ w1 d = w d) ∧
    (∀ ops, ∃ w1, w.run ops = some w1 ∧ w1 d = w d) ∧
    (∀ o, (w d).pickup o = .error (.logic_error "player is dead") ∧
      w.step (.pickup d o) = some w) ∧
    (∀ name, (w d).use name = .error (.logic_error "player is dead") ∧
      w.step (.use d name) = some w) ∧
    (∀ self other, self = d ∨ other = d →
      (∃ what, Fighter.attack w self other = .error (.logic_error what)) ∧
      (∃ what, Healer.heal w self other = .error (.logic_error what)) ∧
      w.step (.attack self other) = some w ∧ w.step (.heal self other) = some w) := by
  have he := Reachable.equipped hw
  refine ⟨?_, ?_, ?_, ?_, ?_⟩
  · intro op
    obtain ⟨w1, h1⟩ := World.step_defined w he op
    exact ⟨w1, h1, World.step_dead w w1 op d hd h1⟩
  · intro ops
    obtain ⟨w1, h1⟩ := World.run_defined ops w he
    exact ⟨w1, h1, World.run_dead ops w w1 d hd h1⟩
  · intro o
    have h1 : (w d).pickup o = .error (.logic_error "player is dead") := by
      simp [Player.pickup, hd]
    exact ⟨h1, by simp [World.step, World.call, h1]⟩
  · intro name
    have h1 : (w d).use name = .error (.logic_error "player is dead") := by
      simp [Player.use, hd]
    exact ⟨h1, by simp [World.step, World.call, h1]⟩
  · intro self other hp
    obtain ⟨⟨wa, ha⟩, ⟨wh, hh⟩⟩ := dead_party_throws w d self other hd hp
    exact ⟨⟨wa, ha⟩, ⟨wh, hh⟩, by simp [World.step, World.call, ha],
      by simp [World.step, World.call, hh]⟩

/-- C19 after the duel: Bob is dead; a fifth attack by Alice leaves the store, and with
it Alice's stamina of 60, as it was. -/
theorem death_is_absorbing_witness :
    (afterDuel 0).stamina_ = 60 ∧
      afterDuel.step (.attack 0 1) = some afterDuel ∧
      afterDuel.step (.heal 2 1) = some afterDuel :=
  ⟨by decide,
    ((death_is_absorbing afterDuel afterDuel_reachable 1 (by decide)).2.2.2.2 0 1
      (Or.inr rfl)).2.2.1,
    ((death_is_absorbing afterDuel afterDuel_reachable 1 (by decide)).2.2.2.2 2 1
      (Or.inr rfl)).2.2.2⟩

/-- C20 (failing input). A Food of value 2147483647, a constructible value, used by an
owner at stamina 100: `Food::use` leaves the stamina at -2147483549, where the claim's
`min(s + v, 100)` is 100.  With addition modulo 2^32 the sum `stamina_ + value_` is
negative, so the comparison against 100 fails and the wrapped sum is stored. -/
theorem Food.use_cap_overflow :
    (0 ≤ (2147483647 : Int) ∧ (2147483647 : Int) ≤ 2 ^ 31 - 1 ∧ gourmand.stamina_ = 100) ∧
    iadd gourmand.stamina_ 2147483647 = -2147483549 ∧
    Food.use ⟨.Food, "Feast", 2147483647⟩ gourmand =
      .ok { gourmand with stamina_ := -2147483549, items_ := [] } ∧
    min (gourmand.stamina_ + 2147483647) 100 = 100 :=
  ⟨by decide, by decide, rfl, by decide⟩

end CombatRPG
